import Mathlib

/-!
Verification of the StockBuddy orchestration and task-execution engine.

This file shallowly embeds the Python source of the repository
(`stockbuddy/core/task/executor.py`, `stockbuddy/core/plan/planner.py`,
`stockbuddy/core/coordinate/orchestrator.py`,
`stockbuddy/server/services/task_service.py`) as pure Lean functions and
proves, for each claim of the specification, either the claim, a
counterexample together with an amended statement, or the relevant facts.

Conventions used throughout:
* Python machine floats measuring wall-clock time are modelled as rationals.
* Streams produced by remote agents, and the success or failure of a remote
  invocation, are parameters of the model (`RemoteItem`, `TaskOutcome`);
  the executor is a pure function of those parameters.
* Fresh UUIDs are threaded explicitly where their value matters and dropped
  where it does not.
* Modules of the repository that are not present under `src/`
  (`core/event/factory.py`, `core/event/router.py`, `core/agent/responses.py`,
  `core/task/models.py`, `core/task/service.py`, the conversation item store)
  are modelled from the specification; each such definition carries a doc
  comment starting with `Modelled from the spec:`.
-/

namespace StockBuddy

/-- Modelled from the spec: `TaskPattern` of `core/task/models.py` (absent from
`src/`), §3: `pattern ∈ {ONCE, RECURRING}`. -/
inductive TaskPattern where
  | once
  | recurring
deriving DecidableEq, Repr

/-- Modelled from the spec: the `Task` record of `core/task/models.py` (absent
from `src/`), §3 of the spec, restricted to the fields the executor, planner
and orchestrator code under `src/` actually reads. -/
structure Task where
  task_id : String
  conversation_id : String
  user_id : String
  agent_name : String
  title : String
  query : String
  pattern : TaskPattern
  depends_on : List String
  handoff_from_super_agent : Bool
deriving DecidableEq, Repr

/-- Modelled from the spec: `Task.is_scheduled` of `core/task/models.py`
(absent from `src/`); §4.3 and §4.6.2 use it as "the task is RECURRING". -/
def Task.is_scheduled (t : Task) : Bool :=
  t.pattern = TaskPattern.recurring

/-- Modelled from the spec: the event taxonomy of §4.1
(`core/event/factory.py` is absent from `src/`). -/
inductive EventKind where
  | conversation_started
  | thread_started
  | task_started
  | task_completed
  | task_failed
  | message_chunk
  | reasoning
  | tool_call_started
  | tool_call_completed
  | plan_require_user_input
  | plan_failed
  | component_generator
  | system_failed
  | done
deriving DecidableEq, Repr

/-- Modelled from the spec: a canonical client event, §4.1: every event
carries `{conversationId, threadId?, taskId?, agentName?, itemId, payload}`.
Item ids and wall-clock timestamps are generated from IO in the source and
are not part of the pure model; the payload is flattened into the `content`
and `component_type` fields actually inspected by the code under `src/`. -/
structure Event where
  event : EventKind
  conversation_id : String
  task_id : Option String
  agent_name : Option String
  content : Option String
  component_type : Option String
deriving DecidableEq, Repr

/-- Modelled from the spec: `ResponseFactory.task_started`, §4.1/§4.6.2: the
started event carries the task's ids and `task.title or task.query` as its
description (call site `executor.py` line 480). -/
def mkTaskStarted (t : Task) : Event :=
  { event := EventKind.task_started
    conversation_id := t.conversation_id
    task_id := some t.task_id
    agent_name := some t.agent_name
    content := some (if t.title = "" then t.query else t.title)
    component_type := none }

/-- Modelled from the spec: `ResponseFactory.task_completed` (call sites
`executor.py` lines 193 and 439). -/
def mkTaskCompleted (conversationId : String) (t : Task) : Event :=
  { event := EventKind.task_completed
    conversation_id := conversationId
    task_id := some t.task_id
    agent_name := some t.agent_name
    content := none
    component_type := none }

/-- Modelled from the spec: `ResponseFactory.task_failed` (call site
`executor.py` line 324). -/
def mkTaskFailed (conversationId : String) (t : Task) (msg : String) : Event :=
  { event := EventKind.task_failed
    conversation_id := conversationId
    task_id := some t.task_id
    agent_name := some t.agent_name
    content := some msg
    component_type := none }

/-- Modelled from the spec: `ResponseFactory.done`, §4.1 (call sites
`executor.py` line 407 and `orchestrator.py` line 209). -/
def mkDone (conversationId : String) : Event :=
  { event := EventKind.done
    conversation_id := conversationId
    task_id := none
    agent_name := none
    content := none
    component_type := none }

/-- Modelled from the spec: `ResponseFactory.system_failed`, §4.1 (call site
`orchestrator.py` line 204). -/
def mkSystemFailed (conversationId : String) (msg : String) : Event :=
  { event := EventKind.system_failed
    conversation_id := conversationId
    task_id := none
    agent_name := none
    content := some msg
    component_type := none }

/-- Modelled from the spec: `ResponseFactory.thread_started` (call site
`executor.py` line 301: no task id is attached). -/
def mkThreadStarted (conversationId : String) : Event :=
  { event := EventKind.thread_started
    conversation_id := conversationId
    task_id := none
    agent_name := none
    content := none
    component_type := none }

/-- Modelled from the spec: `ResponseFactory.component_generator` for the
subagent-conversation components of `executor.py` lines 339-364 (phase
`start` or `end` is carried in `content`). -/
def mkSubagentComponent (superConversationId : String) (t : Task) (phase : String) : Event :=
  { event := EventKind.component_generator
    conversation_id := superConversationId
    task_id := some t.task_id
    agent_name := some t.agent_name
    content := some phase
    component_type := some "subagent_conversation" }

/-- Modelled from the spec:
`ResponseFactory.schedule_task_controller_component` (call site `executor.py`
line 395). -/
def mkScheduleTaskController (t : Task) : Event :=
  { event := EventKind.component_generator
    conversation_id := t.conversation_id
    task_id := some t.task_id
    agent_name := some t.agent_name
    content := none
    component_type := some "scheduled_task_controller" }

/-- Modelled from the spec: `ResponseFactory.schedule_task_result_component`
(call site `executor.py` line 90); the component payload
`{result, create_time}` of §4.3 is carried in `content` (`result` only; the
`create_time` wall-clock stamp is outside the pure model). -/
def mkScheduleTaskResult (t : Task) (result : String) : Event :=
  { event := EventKind.component_generator
    conversation_id := t.conversation_id
    task_id := some t.task_id
    agent_name := some t.agent_name
    content := some result
    component_type := some "schedule_task_result" }

/-! ## String helpers shared by the embeddings -/

/-- Python's substring test `needle in hay`, on character lists.
The empty needle is contained in everything, as in Python. -/
def subInAux (needle : List Char) : List Char → Bool
  | [] => needle.isPrefixOf []
  | c :: rest => needle.isPrefixOf (c :: rest) || subInAux needle rest

/-- Python's `needle in hay` on strings. -/
def subIn (needle hay : String) : Bool :=
  subInAux needle.toList hay.toList

/-- Python's `str.lower()`, character by character (identical to
`String.toLower`, but structurally recursive so that concrete instances
evaluate inside the kernel). -/
def pyLower (s : String) : String :=
  String.mk (s.toList.map Char.toLower)

/-- Python's `str.strip()` whitespace set (ASCII part; `str.strip` also strips
a handful of Unicode spaces that never occur in the strings at hand). -/
def isPyWhitespace (c : Char) : Bool :=
  c = ' ' || c = '\t' || c = '\n' || c = '\r' || c = '\x0b' || c = '\x0c'

/-- Python's `str.strip()`. -/
def pythonStrip (s : String) : String :=
  String.mk (((s.toList.dropWhile isPyWhitespace).reverse.dropWhile isPyWhitespace).reverse)

/-- Python truthiness of an optional string: `None` and `""` are falsy. -/
def truthyOpt : Option String → Bool
  | some s => s ≠ ""
  | none => false

/-! ## Orchestrator: execution contexts (`orchestrator.py` lines 23-62),
fast-track routing (lines 293-299 and 445-485) and the session response
stream (lines 168-209). -/

/-- `orchestrator.py` line 23. -/
def DEFAULT_CONTEXT_TIMEOUT_SECONDS : ℚ := 3600

/-- `ExecutionContext` (`orchestrator.py` lines 27-61). The event-loop clock
readings (Python floats) are modelled as rationals. -/
structure ExecutionContext where
  stage : String
  conversation_id : String
  thread_id : String
  user_id : String
  created_at : ℚ

/-- `ExecutionContext.is_expired` (`orchestrator.py` lines 44-49): strictly
older than the TTL. `now` stands for `asyncio.get_event_loop().time()`. -/
def ExecutionContext.is_expired (ctx : ExecutionContext) (now : ℚ)
    (max_age_seconds : ℚ) : Bool :=
  now - ctx.created_at > max_age_seconds

/-- `ExecutionContext.validate_user` (`orchestrator.py` lines 51-53). -/
def ExecutionContext.validate_user (ctx : ExecutionContext) (user_id : String) : Bool :=
  ctx.user_id = user_id

/-- `AgentOrchestrator._validate_execution_context` (`orchestrator.py` lines
573-590): non-empty stage, matching user, TTL unexpired (default TTL). -/
def validate_execution_context (ctx : ExecutionContext) (user_id : String)
    (now : ℚ) : Bool :=
  if ctx.stage = "" then false
  else if ¬ ctx.validate_user user_id then false
  else if ctx.is_expired now DEFAULT_CONTEXT_TIMEOUT_SECONDS then false
  else true

/-- The super agent's name (`core/super_agent/core.py` line 52). -/
def superAgentName : String := "SuperAgent"

/-- `complex_keywords` (`orchestrator.py` lines 460-464). -/
def complex_keywords : List String :=
  ["analyze", "analysis", "compare", "vs", "versus", "recommend",
   "should i", "worth", "better", "invest", "investment",
   "ipo", "valuation", "trend", "outlook", "performance"]

/-- `chinese_keywords` (`orchestrator.py` lines 467-470). -/
def chinese_keywords : List String :=
  ["分析", "对比", "比较", "推荐", "建议", "值得", "投资",
   "估值", "趋势", "前景", "表现", "如何", "怎么样"]

/-- `AgentOrchestrator._should_fast_track_to_planner` (`orchestrator.py`
lines 445-485). `target_agent_name` and `query` are the fields of the
`UserInput`; `query or ""` never matters because the query is a string. -/
def should_fast_track_to_planner (target_agent_name query : String) : Bool :=
  if target_agent_name = superAgentName then false
  else
    let query_lower := pyLower query
    let english_matches := (complex_keywords.filter (fun kw => subIn kw query_lower)).length
    let chinese_matches := (chinese_keywords.filter (fun kw => subIn kw query)).length
    english_matches ≥ 2 ||
      chinese_matches ≥ 2 ||
      (["vs", "versus", " vs. "].any fun kw => subIn kw query_lower) ||
      (["对比", "vs"].any fun kw => subIn kw query)

/-- Whether `_handle_new_request` invokes the Super Agent triager
(`orchestrator.py` lines 295-299): only when the query is not fast-tracked
and the target agent is exactly the super agent. -/
def triager_invoked (target_agent_name query : String) : Bool :=
  ¬ should_fast_track_to_planner target_agent_name query &&
    target_agent_name = superAgentName

/-- The keyword condition of the fast-track rule as claim C6 states it,
written from the claim's words for comparison with the code: at least two
English complexity keywords, or at least two CJK keywords, or an explicit
comparator token. -/
def fast_track_keyword_rule (query : String) : Bool :=
  let query_lower := pyLower query
  (complex_keywords.filter (fun kw => subIn kw query_lower)).length ≥ 2 ||
    (chinese_keywords.filter (fun kw => subIn kw query)).length ≥ 2 ||
    (["vs", "versus", " vs. "].any fun kw => subIn kw query_lower) ||
    (["对比", "vs"].any fun kw => subIn kw query)

/-- The fast-track predicate exactly as claim C6 states it: target agent
empty and the keyword rule fires. -/
def fast_track_claimed_rule (target_agent_name query : String) : Bool :=
  target_agent_name = "" && fast_track_keyword_rule query

/-- `AgentOrchestrator._generate_responses` (`orchestrator.py` lines
168-209), abstracted over the body of its `try` block: `body` is the
sequence of events the pipeline produced before either finishing or raising,
and `error` is the message of the raised exception, if any. The
`except` clause turns the exception into a `system_failed` event and the
`finally` clause appends the terminal `done` on every exit path. -/
def generate_responses (conversation_id : String) (body : List Event)
    (error : Option String) : List Event :=
  body ++
    (match error with
      | some e => [mkSystemFailed conversation_id ("(Error) Error processing request: " ++ e)]
      | none => []) ++
    [mkDone conversation_id]

/-! ## Event predicates and the scheduled-task result accumulator
(`executor.py` lines 40-93). -/

/-- Modelled from the spec: `EventPredicates.is_message` of
`core/agent/responses.py` (absent from `src/`); §4.3 identifies message
events with the `message_chunk` kind of §4.1. -/
def EventPredicates.is_message (e : EventKind) : Bool :=
  e = EventKind.message_chunk

/-- Modelled from the spec: `EventPredicates.is_reasoning` of
`core/agent/responses.py` (absent from `src/`); §4.1's `reasoning` kind. -/
def EventPredicates.is_reasoning (e : EventKind) : Bool :=
  e = EventKind.reasoning

/-- Modelled from the spec: `EventPredicates.is_tool_call` of
`core/agent/responses.py` (absent from `src/`); §4.1's `tool_call_started`
and `tool_call_completed` kinds. -/
def EventPredicates.is_tool_call (e : EventKind) : Bool :=
  e = EventKind.tool_call_started || e = EventKind.tool_call_completed

/-- `ScheduledTaskResultAccumulator` (`executor.py` lines 40-49): the task it
serves and the buffer of collected message contents. -/
structure ScheduledTaskResultAccumulator where
  task : Task
  buffer : List String
deriving DecidableEq, Repr

/-- `ScheduledTaskResultAccumulator.enabled` (`executor.py` lines 47-49). -/
def ScheduledTaskResultAccumulator.enabled (a : ScheduledTaskResultAccumulator) : Bool :=
  a.task.is_scheduled

/-- The loop body of `ScheduledTaskResultAccumulator.consume` (`executor.py`
lines 55-74): returns the passthrough events and the final buffer. A message
event's content is appended only when the payload is present and the content
truthy; reasoning and tool-call events are dropped; everything else passes
through. -/
def consumeLoop (buffer : List String) : List Event → List Event × List String
  | [] => ([], buffer)
  | resp :: rest =>
    if EventPredicates.is_message resp.event then
      let buffer' :=
        match resp.content with
        | some c => if c = "" then buffer else buffer ++ [c]
        | none => buffer
      consumeLoop buffer' rest
    else if EventPredicates.is_reasoning resp.event then consumeLoop buffer rest
    else if EventPredicates.is_tool_call resp.event then consumeLoop buffer rest
    else
      let (pass, buffer') := consumeLoop buffer rest
      (resp :: pass, buffer')

/-- `ScheduledTaskResultAccumulator.consume` (`executor.py` lines 51-74);
returns the passthrough list together with the updated accumulator. -/
def ScheduledTaskResultAccumulator.consume (a : ScheduledTaskResultAccumulator)
    (responses : List Event) : List Event × ScheduledTaskResultAccumulator :=
  if ¬ a.enabled then (responses, a)
  else
    let (pass, buffer') := consumeLoop a.buffer responses
    (pass, { a with buffer := buffer' })

/-- `ScheduledTaskResultAccumulator.finalize` (`executor.py` lines 76-93). -/
def ScheduledTaskResultAccumulator.finalize (a : ScheduledTaskResultAccumulator) :
    Option Event :=
  if ¬ a.enabled then none
  else
    let content := pythonStrip (String.join a.buffer)
    let content := if content = "" then "Task completed without output." else content
    some (mkScheduleTaskResult a.task content)

/-! ## Remote streams and per-task execution (`executor.py` lines 366-521).

A remote agent's stream is a list of `RemoteItem`s: the initial
`submitted`-state poll, status updates already translated by the event
router, and artifact updates (ignored by the executor). Whether the
invocation raised (transport error, remote failure propagated as an
exception) is part of the `TaskOutcome` parameter. -/

/-- Modelled from the spec: the kinds of client events the event router
(`core/event/router.py`, absent from `src/`) produces for a remote status
update, §4.2: message, reasoning and tool-call events are translated 1-to-1;
remote terminal statuses produce no event. -/
inductive RoutedKind where
  | message
  | reasoning
  | tool_call_begin
  | tool_call_end
deriving DecidableEq, Repr

/-- A router-translated payload: its kind and its textual content. -/
structure RoutedPayload where
  kind : RoutedKind
  content : Option String
deriving DecidableEq, Repr

/-- Modelled from the spec: the event router stamps each translated event
with the ids of the task whose stream it belongs to (§4.2: "events from a
single task appear in the client feed in the exact order they arrived"). -/
def routeStamp (t : Task) (p : RoutedPayload) : Event :=
  { event :=
      match p.kind with
      | RoutedKind.message => EventKind.message_chunk
      | RoutedKind.reasoning => EventKind.reasoning
      | RoutedKind.tool_call_begin => EventKind.tool_call_started
      | RoutedKind.tool_call_end => EventKind.tool_call_completed
    conversation_id := t.conversation_id
    task_id := some t.task_id
    agent_name := some t.agent_name
    content := p.content
    component_type := none }

/-- One item of a remote stream as `_execute_single_task_run` consumes it:
the `submitted`-state poll (`executor.py` line 478), a routed status update
with the router's `done` flag (line 490), or an ignored artifact update
(line 506). -/
inductive RemoteItem where
  | submitted_poll
  | status_update (routed : List RoutedPayload) (done : Bool)
  | artifact
deriving DecidableEq, Repr

/-- The stream-consumption loop of `_execute_single_task_run` (`executor.py`
lines 477-516), threading the accumulator buffer: a submitted poll emits
`task_started`; a status update is routed, passed through the accumulator and
emitted, and a `done` result returns from the run before the finalizer; when
the stream is exhausted the accumulator's final component (if any) is
emitted. -/
def runConsumeLoop (t : Task) (buffer : List String) : List RemoteItem → List Event
  | [] => (ScheduledTaskResultAccumulator.finalize ⟨t, buffer⟩).toList
  | RemoteItem.submitted_poll :: rest => mkTaskStarted t :: runConsumeLoop t buffer rest
  | RemoteItem.status_update routed done :: rest =>
    let (pass, a') := ScheduledTaskResultAccumulator.consume ⟨t, buffer⟩ (routed.map (routeStamp t))
    pass ++ (if done then [] else runConsumeLoop t a'.buffer rest)
  | RemoteItem.artifact :: rest => runConsumeLoop t buffer rest

/-- `TaskExecutor._execute_single_task_run` (`executor.py` lines 456-521)
applied to one remote stream; the accumulator starts empty for each run. -/
def execute_single_task_run (t : Task) (stream : List RemoteItem) : List Event :=
  runConsumeLoop t [] stream

/-- The outcome of all remote interaction for one task, a parameter of the
pure model: `ok runs` is a normal termination of `_execute_task`'s loop
after processing `runs` (for ONCE tasks only the first run exists); `err`
is an exception escaping `_execute_task` (transport error or any raise
inside the run) after `runs` complete runs and the processed part
`partialRun` of the failing run. -/
inductive TaskOutcome where
  | ok (runs : List (List RemoteItem))
  | err (runs : List (List RemoteItem)) (partialRun : List RemoteItem)

/-- `TaskExecutor._execute_task` (`executor.py` lines 366-454): the events it
yields and whether it re-raised an exception. `plan_conversation_id` is the
super conversation used by the one-shot subagent-END emitter passed as
`on_before_done` for handoff tasks. For a scheduled task the controller
component, the optional subagent END and a `done` marker are emitted up
front; then each run's events; on normal loop exit a single
`task_completed`. -/
def execute_task (plan_conversation_id : String) (t : Task) (o : TaskOutcome) :
    List Event × Bool :=
  let pre :=
    if t.is_scheduled then
      [mkScheduleTaskController t] ++
        (if t.handoff_from_super_agent then [mkSubagentComponent plan_conversation_id t "end"] else []) ++
        [mkDone t.conversation_id]
    else []
  match o with
  | TaskOutcome.ok runs =>
    let runEvents :=
      if t.is_scheduled then (runs.map (execute_single_task_run t)).flatten
      else execute_single_task_run t (runs.headD [])
    (pre ++ runEvents ++ [mkTaskCompleted t.conversation_id t], false)
  | TaskOutcome.err runs partialRun =>
    let runEvents :=
      if t.is_scheduled then (runs.map (execute_single_task_run t)).flatten
      else []
    (pre ++ runEvents ++ execute_single_task_run t partialRun, true)

/-- The error message of `_execute_single_task_in_plan`'s `except` clause
(`executor.py` line 322); the exception text itself is elided. -/
def executionErrorMessage (t : Task) : String :=
  "(Error) Error executing " ++ t.task_id

/-- `TaskExecutor._execute_single_task_in_plan` (`executor.py` lines
256-337): for a handoff task, the subagent START component and a
`thread_started` event first; then the task execution; an exception becomes
a `task_failed` event; the `finally` clause emits the one-shot subagent END
if `_execute_task` did not already (it did exactly when the task is
scheduled, via `on_before_done`). -/
def execute_single_task_in_plan (plan_conversation_id : String) (t : Task)
    (o : TaskOutcome) : List Event :=
  (if t.handoff_from_super_agent then
      [mkSubagentComponent plan_conversation_id t "start", mkThreadStarted t.conversation_id]
    else []) ++
  (let (events, raised) := execute_task plan_conversation_id t o
   events ++ (if raised then [mkTaskFailed plan_conversation_id t (executionErrorMessage t)] else [])) ++
  (if t.handoff_from_super_agent && !t.is_scheduled then
      [mkSubagentComponent plan_conversation_id t "end"]
    else [])

/-! ## Batch building and plan execution (`executor.py` lines 113-254).

Python's `remaining` set of task ids is modelled as a duplicate-free list;
set iteration order is unspecified in Python, so batch-internal order is a
deterministic refinement here (all claims are order-insensitive inside a
batch). `tasks_by_id` maps an id to the LAST task carrying it, exactly as
the dict comprehension does. -/

/-- `tasks_by_id[tid]`: the last task of the list with the given id
(`executor.py` line 203: later dict entries overwrite earlier ones). -/
def tasks_by_id (tasks : List Task) (tid : String) : Option Task :=
  tasks.reverse.find? (fun t => t.task_id = tid)

/-- The initial `remaining` state collapsed to tasks: one task per distinct
id, resolved through `tasks_by_id`. -/
def dedupById (tasks : List Task) : List Task :=
  ((tasks.map Task.task_id).dedup).filterMap (tasks_by_id tasks)

/-- The `ready` filter of the scheduler (`executor.py` lines 210-214 and
165-168): tasks whose dependencies are all in `completed`. -/
def ready_filter (completed : List String) (batch : List Task) : List Task :=
  batch.filter (fun t => t.depends_on.all (fun d => completed.contains d))

/-- The `while remaining` loop of `_build_execution_batches` (`executor.py`
lines 208-225), fuelled: each iteration removes at least one task, so fuel
`rem.length` always suffices. When no task is ready, all remaining tasks are
emitted as one final batch (the cycle fallback of lines 216-220). -/
def peelBatches : ℕ → List Task → List String → List (List Task)
  | 0, _, _ => []
  | fuel + 1, rem, completed =>
    if rem.isEmpty then []
    else
      let ready0 := ready_filter completed rem
      let ready := if ready0.isEmpty then rem else ready0
      let readyIds := ready.map Task.task_id
      ready :: peelBatches fuel (rem.filter (fun t => !readyIds.contains t.task_id))
        (completed ++ readyIds)

/-- `TaskExecutor._build_execution_batches` (`executor.py` lines 201-227). -/
def build_execution_batches (tasks : List Task) : List (List Task) :=
  peelBatches (dedupById tasks).length (dedupById tasks) []

/-- The same peeling, recording whether the cycle fallback was ever taken:
`true` means the dependency graph of the (deduplicated) tasks is acyclic and
the scheduler never had to force a batch. -/
def peelAcyclic : ℕ → List Task → List String → Bool
  | 0, rem, _ => rem.isEmpty
  | fuel + 1, rem, completed =>
    if rem.isEmpty then true
    else
      let ready0 := ready_filter completed rem
      if ready0.isEmpty then false
      else
        peelAcyclic fuel (rem.filter (fun t => !(ready0.map Task.task_id).contains t.task_id))
          (completed ++ ready0.map Task.task_id)

/-- Acyclicity of a task list's `depends_on` graph, as the scheduler sees
it. -/
def acyclic_tasks (tasks : List Task) : Bool :=
  peelAcyclic (dedupById tasks).length (dedupById tasks) []

/-- One batch iteration of `_execute_plan_with_dependencies` (`executor.py`
lines 163-199): the ready tasks run (their merged streams are yielded in
task order, as `_merge_task_responses` gathers each generator's responses
completely and yields them in order), then a batch-level `task_completed`
event is emitted for each of them. -/
def execute_batch (plan_conversation_id : String) (outcomes : String → TaskOutcome)
    (toExecute : List Task) : List Event :=
  (toExecute.map (fun t => execute_single_task_in_plan plan_conversation_id t (outcomes t.task_id))).flatten
    ++ toExecute.map (fun t => mkTaskCompleted plan_conversation_id t)

/-- The batch loop of `_execute_plan_with_dependencies` (`executor.py` lines
163-199) over precomputed batches, threading the `completed` id set. A batch
with no ready task is skipped (`continue`, line 170-171) and adds nothing to
`completed`; `execute_batch` of an empty list is empty, so the skip needs no
special case. -/
def execute_plan_with_dependencies_loop (plan_conversation_id : String)
    (outcomes : String → TaskOutcome) :
    List (List Task) → List String → List Event
  | [], _ => []
  | b :: bs, completed =>
    let toExecute := ready_filter completed b
    execute_batch plan_conversation_id outcomes toExecute ++
      execute_plan_with_dependencies_loop plan_conversation_id outcomes bs
        (completed ++ toExecute.map Task.task_id)

/-- `ExecutionPlan` (`core/plan/models.py`; field set as used by the code
under `src/`, cf. §3 of the spec). -/
structure ExecutionPlan where
  plan_id : String
  conversation_id : String
  user_id : String
  orig_query : String
  tasks : List Task
  guidance_message : Option String

/-- The guidance message event of `execute_plan` (`executor.py` lines
119-128): a `message_chunk` from agent "Planner" carrying the guidance
message; its task id is a freshly generated one. -/
def mkPlannerGuidance (plan : ExecutionPlan) (fresh_task_id : String) : Event :=
  { event := EventKind.message_chunk
    conversation_id := plan.conversation_id
    task_id := some fresh_task_id
    agent_name := some "Planner"
    content := some (plan.guidance_message.getD "")
    component_type := none }

/-- `TaskExecutor.execute_plan` (`executor.py` lines 113-146): a truthy
guidance message short-circuits to a single Planner `message_chunk`; plans
whose tasks all have empty `depends_on` run sequentially; otherwise the
dependency-aware batch loop runs. `fresh_task_id` stands for the
`generate_task_id()` of line 124. -/
def execute_plan (fresh_task_id : String) (plan : ExecutionPlan)
    (outcomes : String → TaskOutcome) : List Event :=
  if truthyOpt plan.guidance_message then [mkPlannerGuidance plan fresh_task_id]
  else if plan.tasks.any (fun t => !t.depends_on.isEmpty) then
    execute_plan_with_dependencies_loop plan.conversation_id outcomes
      (build_execution_batches plan.tasks) []
  else
    (plan.tasks.map (fun t => execute_single_task_in_plan plan.conversation_id t (outcomes t.task_id))).flatten

/-! ## Event counting and well-formedness, used to state the lifecycle
claims. -/

/-- A terminal task-lifecycle event kind. -/
def isTerminalKind (k : EventKind) : Bool :=
  k = EventKind.task_completed || k = EventKind.task_failed

/-- Number of `task_started` events for a given task id. -/
def started_count (tid : String) (events : List Event) : ℕ :=
  (events.filter (fun e => e.event = EventKind.task_started && e.task_id = some tid)).length

/-- Number of terminal (`task_completed` or `task_failed`) events for a given
task id. -/
def terminal_count (tid : String) (events : List Event) : ℕ :=
  (events.filter (fun e => isTerminalKind e.event && e.task_id = some tid)).length

/-- The number of `submitted` polls the run loop actually processes: polls
after a `done` status update are never reached. -/
def run_submit_count : List RemoteItem → ℕ
  | [] => 0
  | RemoteItem.submitted_poll :: rest => run_submit_count rest + 1
  | RemoteItem.status_update _ true :: _ => 0
  | RemoteItem.status_update _ false :: rest => run_submit_count rest
  | RemoteItem.artifact :: rest => run_submit_count rest

/-- No status update of the stream carries the router's `done` flag. -/
def no_done_stream (stream : List RemoteItem) : Bool :=
  stream.all fun i =>
    match i with
    | RemoteItem.status_update _ true => false
    | _ => true

/-- A well-formed outcome for a ONCE task: a single completed run whose
processed part contains exactly one `submitted` poll (§6: agents emit
`submitted` first, exactly once), or a failing run that was interrupted
before any terminal `done`, again with exactly one processed `submitted`
poll. -/
def wf_once_outcome : TaskOutcome → Bool
  | TaskOutcome.ok [s] => run_submit_count s = 1
  | TaskOutcome.err [] p => run_submit_count p = 1 && no_done_stream p
  | _ => false

/-! ## Planner: direct plans from Super Agent recommendations
(`planner.py` lines 162-200 and 316-418). -/

/-- Suppliers for the fresh UUIDs consumed while building tasks: the k-th
created task receives `task_uuid k` (from `generate_uuid("task")`) and, being
a handoff task, a fresh conversation id `conversation_uuid k` (from
`generate_conversation_id` in `_create_task`, `planner.py` line 533). -/
structure FreshIds where
  task_uuid : ℕ → String
  conversation_uuid : ℕ → String

/-- The agent names `_create_tasks_from_recommendations` treats as
independent tasks (`planner.py` line 348). -/
def independent_agent_names : List String := ["ResearchAgent", "NewsAgent"]

/-- One task built by `_create_tasks_from_recommendations` through
`_create_task` (`planner.py` lines 352-412 and 502-551): pattern ONCE, the
handoff flag set, a fresh task id and a fresh subagent conversation id.
`title` comes from the `task_descriptions` template table, whose literal
(mojibake) Chinese text is irrelevant to every claim and is supplied as a
parameter. -/
def mkRecommendationTask (fresh : FreshIds) (idx : ℕ) (user_id agent_name title query : String)
    (depends_on : List String) : Task :=
  { task_id := fresh.task_uuid idx
    conversation_id := fresh.conversation_uuid idx
    user_id := user_id
    agent_name := agent_name
    title := title
    query := query
    pattern := TaskPattern.once
    depends_on := depends_on
    handoff_from_super_agent := true }

/-- Python's `enumerate` fused with a map: the k-th element of the list
(counting from `start`) is passed to `f` with its index. -/
def enumMap (f : ℕ → String → Task) (start : ℕ) : List String → List Task
  | [] => []
  | a :: rest => f start a :: enumMap f (start + 1) rest

/-- `ExecutionPlanner._create_tasks_from_recommendations` (`planner.py` lines
316-418): recommended agents among {ResearchAgent, NewsAgent} become
independent tasks; recommended "StrategyAgent" entries become tasks depending
on all independent tasks (or independent themselves when there are none);
any other recommended agent name is silently dropped by the two filters.
`task_descriptions agent query` stands for the template table of lines
341-345 with its `.get(agent_name, query)` default. -/
def create_tasks_from_recommendations (fresh : FreshIds)
    (task_descriptions : String → String → String) (user_id query : String)
    (recommended_agents : List String) : List Task :=
  let independent_agents := recommended_agents.filter (fun a => independent_agent_names.contains a)
  let dependent_agents := recommended_agents.filter (fun a => a = "StrategyAgent")
  let indTasks := enumMap (fun i a =>
    mkRecommendationTask fresh i user_id a (task_descriptions a query) query []) 0 independent_agents
  if !dependent_agents.isEmpty && !indTasks.isEmpty then
    let dependency_task_ids := indTasks.map Task.task_id
    indTasks ++ enumMap (fun i a =>
      mkRecommendationTask fresh i user_id a (task_descriptions a query) query dependency_task_ids)
      independent_agents.length dependent_agents
  else if !dependent_agents.isEmpty then
    enumMap (fun i a =>
      mkRecommendationTask fresh i user_id a (task_descriptions a query) query []) 0 dependent_agents
  else indTasks

/-- How `_analyze_input_and_create_tasks` chooses its code path. -/
inductive PlannerPath where
  | direct (tasks : List Task)
  | llm
deriving Repr

/-- The routing decision at the head of
`ExecutionPlanner._analyze_input_and_create_tasks` (`planner.py` lines
189-200): with two or more recommended agents the plan is built directly,
with no LLM involvement; otherwise planning is delegated to the LLM agent
(modelled only as the `llm` marker). -/
def analyze_input_path (fresh : FreshIds) (task_descriptions : String → String → String)
    (user_id query : String) (recommended_agents : Option (List String)) : PlannerPath :=
  match recommended_agents with
  | some recs =>
    if recs.length > 1 then
      PlannerPath.direct (create_tasks_from_recommendations fresh task_descriptions user_id query recs)
    else PlannerPath.llm
  | none => PlannerPath.llm

/-! ## Task cancellation endpoint (`server/services/task_service.py` and
`server/api/routers/task.py`). -/

/-- Modelled from the spec: task status of `core/task/models.py` (absent
from `src/`), §3. -/
inductive TaskStatus where
  | pending
  | running
  | completed
  | failed
  | cancelled
deriving DecidableEq, Repr

/-- Modelled from the spec: `TaskService.cancel_task` of
`core/task/service.py` (absent from `src/`), §5: "TaskService exposes
`cancel(taskId)`, which transitions the task to CANCELLED"; returns whether
a task was found to cancel. The in-memory registry is a partial map from
task id to status. -/
def cancel_task (tasks : String → Option TaskStatus) (tid : String) :
    (String → Option TaskStatus) × Bool :=
  match tasks tid with
  | some _ => (fun x => if x = tid then some TaskStatus.cancelled else tasks x, true)
  | none => (tasks, false)

/-- The JSON object stored in a `scheduled_task_controller` component's
`content` string, as `cancel_and_update_component` reads and writes it: the
embedded `task_id`, the `task_status`, and all other keys (preserved
verbatim by the update). -/
structure ControllerContent where
  task_id : Option String
  task_status : Option String
  rest : List (String × String)
deriving DecidableEq, Repr

/-- The `content` entry of a persisted item's payload as
`cancel_and_update_component` sees it: missing (or JSON `null`), present but
not a string, or a string — which `json.loads` either parses to a
`ControllerContent` or rejects (`none`, which also covers the empty
string). -/
inductive ContentField where
  | absent
  | non_string
  | str_enc (parsed : Option ControllerContent)
deriving DecidableEq, Repr

/-- A persisted item's payload, JSON-parsed: its `content` entry and all
other keys. -/
structure ItemPayload where
  content : ContentField
  rest : List (String × String)
deriving DecidableEq, Repr

/-- Modelled from the spec: a persisted `ConversationItem`, §3 (the item
store is behind `core/conversation`, absent from `src/`). `payload = none`
models a stored payload string that `json.loads` rejects. -/
structure StoredItem where
  item_id : String
  conversation_id : String
  thread_id : Option String
  task_id : Option String
  role : String
  event : String
  component_type : String
  agent_name : Option String
  payload : Option ItemPayload
  metadata : Option String
deriving DecidableEq, Repr

/-- The filter of `get_conversation_items` as called by
`cancel_and_update_component` (`task_service.py` lines 38-41). -/
def is_controller_item (item : StoredItem) : Bool :=
  item.event = "component_generator" && item.component_type = "scheduled_task_controller"

/-- The match test of `cancel_and_update_component` (`task_service.py` lines
45-59): the item's `task_id` column equals the id, or — as a fallback — the
payload parses, its `content` is a truthy string that parses, and the
embedded `task_id` equals the id; every failure in the fallback skips the
item. -/
def item_matches_task (item : StoredItem) (tid : String) : Bool :=
  if item.task_id = some tid then true
  else
    match item.payload with
    | none => false
    | some p =>
      match p.content with
      | ContentField.str_enc (some c) => c.task_id = some tid
      | _ => false

/-- Whether the update block of `cancel_and_update_component`
(`task_service.py` lines 61-96) completes for an item rather than being
skipped by its `except` clause: the payload must parse, and a string
`content` must itself parse. -/
def item_update_applies (item : StoredItem) : Bool :=
  match item.payload with
  | none => false
  | some p =>
    match p.content with
    | ContentField.str_enc none => false
    | _ => true

/-- The in-place payload rewrite of `cancel_and_update_component`
(`task_service.py` lines 61-93): a parsed string `content` gets
`task_status = "cancelled"` with every other key preserved; a missing or
non-string `content` is replaced by the fresh object
`{"task_status": "cancelled"}`; items whose payload or `content` fails to
parse are returned unchanged. -/
def update_controller_item (item : StoredItem) : StoredItem :=
  match item.payload with
  | none => item
  | some p =>
    match p.content with
    | ContentField.str_enc none => item
    | ContentField.str_enc (some c) =>
      let c' : ControllerContent := { c with task_status := some "cancelled" }
      let p' : ItemPayload := { p with content := ContentField.str_enc (some c') }
      { item with payload := some p' }
    | _ =>
      let p' : ItemPayload := { p with content := ContentField.str_enc (some ⟨none, some "cancelled", []⟩) }
      { item with payload := some p' }

/-- The externally observable result of the cancel endpoint. -/
structure TaskCancelOutcome where
  store : List StoredItem
  tasks : String → Option TaskStatus
  success : Bool
  updated_component_ids : List String

/-- Whether `cancel_and_update_component` rewrites a fetched item for the
given task id: it is a controller component, it matches the id, and its
payload survives parsing. -/
def item_should_update (tid : String) (item : StoredItem) : Bool :=
  is_controller_item item && item_matches_task item tid && item_update_applies item

/-- The per-item effect of one pass of `cancel_and_update_component`'s
loop. -/
def cancel_item_rewrite (tid : String) (item : StoredItem) : StoredItem :=
  if item_should_update tid item then update_controller_item item else item

/-- `TaskApiService.cancel_and_update_component` (`task_service.py` lines
22-106): cancel the in-memory task if present; then rewrite every fetched
`scheduled_task_controller` item that matches the task id and whose payload
survives parsing, collecting the updated item ids; `success` is
`cancelled or len(updated_ids) > 0`. The upsert-by-item-id write-back keeps
every item at its position in the store. -/
def cancel_and_update_component (store : List StoredItem)
    (tasks : String → Option TaskStatus) (tid : String) : TaskCancelOutcome :=
  let (tasks', cancelled) := cancel_task tasks tid
  { store := store.map (cancel_item_rewrite tid)
    tasks := tasks'
    success := cancelled || ¬ ((store.filter (item_should_update tid)).map StoredItem.item_id).isEmpty
    updated_component_ids := (store.filter (item_should_update tid)).map StoredItem.item_id }

/-! ## Derived predicates used to state the claims, and concrete instances
used by witnesses and counterexamples. -/

/-- Events the accumulator's `consume` passes through: neither message nor
reasoning nor tool-call events. -/
def pass_keep (e : Event) : Bool :=
  ¬ EventPredicates.is_message e.event && ¬ EventPredicates.is_reasoning e.event &&
    ¬ EventPredicates.is_tool_call e.event

/-- The buffer contribution of one consumed event: the content of a message
event when the payload is present and truthy. -/
def message_buffer_content (e : Event) : Option String :=
  if EventPredicates.is_message e.event then
    match e.content with
    | some c => if c = "" then none else some c
    | none => none
  else none

/-- The result string `finalize` actually produces from a joined buffer:
stripped, with a placeholder when empty (`executor.py` lines 80-82). -/
def strip_or_default (s : String) : String :=
  let s' := pythonStrip s
  if s' = "" then "Task completed without output." else s'

/-- The fast-track rule as the code implements it, in the corrected claim's
words: the target agent is anything but the super agent, and the keyword
rule fires. -/
def fast_track_amended_rule (target_agent_name query : String) : Bool :=
  target_agent_name ≠ superAgentName && fast_track_keyword_rule query

/-- Whether a stored item's payload records `task_status = "cancelled"`. -/
def item_status_cancelled (item : StoredItem) : Bool :=
  match item.payload with
  | some p =>
    match p.content with
    | ContentField.str_enc (some c) => c.task_status = some "cancelled"
    | _ => false
  | none => false

/-- Concrete task `a` with no dependencies. -/
def exTaskA : Task :=
  { task_id := "a", conversation_id := "conv-a", user_id := "u", agent_name := "ResearchAgent",
    title := "research", query := "q", pattern := TaskPattern.once, depends_on := [],
    handoff_from_super_agent := false }

/-- Concrete task `b` depending on `a`. -/
def exTaskB : Task :=
  { exTaskA with task_id := "b", conversation_id := "conv-b", agent_name := "NewsAgent",
                 depends_on := ["a"] }

/-- A second task carrying the same id as `exTaskA` but a different agent. -/
def exTaskDup : Task :=
  { exTaskA with agent_name := "NewsAgent" }

/-- A concrete two-task plan with one dependency edge. -/
def exPlanDep : ExecutionPlan :=
  { plan_id := "p", conversation_id := "conv-plan", user_id := "u", orig_query := "q",
    tasks := [exTaskA, exTaskB], guidance_message := none }

/-- A concrete plan whose planner asked for clarification. -/
def exPlanGuidance : ExecutionPlan :=
  { exPlanDep with tasks := [exTaskA], guidance_message := some "please confirm" }

/-- Outcomes giving every task one clean run: a single `submitted` poll. -/
def exOutcomes : String → TaskOutcome :=
  fun _ => TaskOutcome.ok [[RemoteItem.submitted_poll]]

/-- A concrete RECURRING task. -/
def exRecurringTask : Task :=
  { exTaskA with task_id := "r", pattern := TaskPattern.recurring }

/-- Concrete fresh-id suppliers. -/
def exFresh : FreshIds :=
  { task_uuid := fun n => "task-" ++ toString n
    conversation_uuid := fun n => "conv-" ++ toString n }

/-- A concrete stand-in for the planner's `task_descriptions` table. -/
def exDesc : String → String → String := fun _ query => query

/-- A persisted controller item whose stored payload string `json.loads`
rejects, but whose `task_id` column references task `t`. -/
def exBadItem : StoredItem :=
  { item_id := "item-bad", conversation_id := "conv", thread_id := none, task_id := some "t",
    role := "assistant", event := "component_generator",
    component_type := "scheduled_task_controller", agent_name := none,
    payload := none, metadata := none }

/-- A persisted controller item with a well-formed payload whose embedded
content references task `t`. -/
def exGoodItem : StoredItem :=
  { exBadItem with item_id := "item-good", task_id := none,
                   payload := some { content := ContentField.str_enc (some ⟨some "t", some "active", [("x", "1")]⟩),
                                     rest := [("component_type", "scheduled_task_controller")] } }

/-- An in-memory task registry holding the single running task `t`. -/
def exTaskMap : String → Option TaskStatus :=
  fun x => if x = "t" then some TaskStatus.running else none

/-- A concrete execution context created at clock value 0. -/
def exContext : ExecutionContext :=
  { stage := "planning", conversation_id := "conv", thread_id := "th", user_id := "u",
    created_at := 0 }

/-- The task ids already placed after `completed` and the first `k` batches
of `B`. -/
def placed_ids (completed : List String) (B : List (List Task)) (k : ℕ) : List String :=
  completed ++ ((B.take k).flatten).map Task.task_id

/-- The tasks of `rem` whose ids are not yet placed. -/
def rest_tasks (rem : List Task) (placed : List String) : List Task :=
  rem.filter (fun t => !placed.contains t.task_id)

/-! # Theorems -/

/-- C8: for every ExecutionContext and elapsed time `e = now - created_at`,
`is_expired` with the default TTL of 3600 s returns `false` whenever
`e ≤ 3600` and `true` whenever `e > 3600`; hence (through
`_validate_execution_context`, for a context with a stage and a matching
user) a context accessed at or before the TTL is accepted for resumption and
one accessed after the TTL is rejected. -/
theorem C8_context_ttl_boundary :
    ∀ (ctx : ExecutionContext) (user_id : String) (now : ℚ),
      (ctx.is_expired now DEFAULT_CONTEXT_TIMEOUT_SECONDS = false ↔
        now - ctx.created_at ≤ 3600) ∧
      (ctx.is_expired now DEFAULT_CONTEXT_TIMEOUT_SECONDS = true ↔
        3600 < now - ctx.created_at) ∧
      (ctx.stage ≠ "" → ctx.user_id = user_id →
        (validate_execution_context ctx user_id now = true ↔
          now - ctx.created_at ≤ 3600)) := by
  intro ctx user_id now
  have hexp : ctx.is_expired now DEFAULT_CONTEXT_TIMEOUT_SECONDS = true ↔
      3600 < now - ctx.created_at := by
    simp [ExecutionContext.is_expired, DEFAULT_CONTEXT_TIMEOUT_SECONDS]
  refine ⟨?_, hexp, ?_⟩
  · rw [← Bool.not_eq_true, hexp]
    exact not_lt
  · intro hstage huser
    have hv : ctx.validate_user user_id = true := by
      simp [ExecutionContext.validate_user, huser]
    unfold validate_execution_context
    rw [if_neg hstage, if_neg (fun hn => hn hv)]
    by_cases h : ctx.is_expired now DEFAULT_CONTEXT_TIMEOUT_SECONDS = true
    · rw [if_pos h]
      constructor
      · intro hft
        exact absurd hft (by simp)
      · intro hle
        exact absurd (hexp.mp h) (not_lt.mpr hle)
    · rw [if_neg h]
      constructor
      · intro _
        exact not_lt.mp (fun hc => h (hexp.mpr hc))
      · intro _
        rfl

/-- Witness for C8 at a concrete context created at clock 0: at elapsed time
3600 the context is unexpired and accepted, at 3601 it is expired. -/
theorem C8_context_ttl_boundary_witness :
    exContext.is_expired 3600 DEFAULT_CONTEXT_TIMEOUT_SECONDS = false ∧
    exContext.is_expired 3601 DEFAULT_CONTEXT_TIMEOUT_SECONDS = true ∧
    validate_execution_context exContext "u" 3600 = true := by
  have h1 := C8_context_ttl_boundary exContext "u" 3600
  have h2 := C8_context_ttl_boundary exContext "u" 3601
  refine ⟨h1.1.mpr ?_, h2.2.1.mpr ?_, (h1.2.2 (by decide) rfl).mpr ?_⟩
  · show (3600 : ℚ) - exContext.created_at ≤ 3600
    norm_num [exContext]
  · show (3600 : ℚ) < 3601 - exContext.created_at
    norm_num [exContext]
  · show (3600 : ℚ) - exContext.created_at ≤ 3600
    norm_num [exContext]

/-- C6 counterexample: the fast-track predicate fires for a query whose
target agent is non-empty ("NewsAgent"), although the claim says a non-empty
target is never fast-tracked; and with an empty target and no complexity
keyword the claim demands the Triager run, yet the orchestrator's condition
(`target == "SuperAgent"`) still bypasses it. -/
theorem C6_counterexample :
    should_fast_track_to_planner "NewsAgent" "tesla vs apple" = true ∧
    fast_track_claimed_rule "NewsAgent" "tesla vs apple" = false ∧
    triager_invoked "" "hello" = false ∧
    fast_track_claimed_rule "" "hello" = false := by
  refine ⟨by decide, by decide, by decide, by decide⟩

/-- C6 amended: `_should_fast_track_to_planner` returns `true` exactly when
the target agent differs from "SuperAgent" and the keyword rule (≥2 English
complexity keywords, ≥2 CJK keywords, or a comparator token) fires; and the
fast-track result never changes the triage decision: the Triager is invoked
exactly when the target agent is "SuperAgent", since the predicate is
constantly false there. -/
theorem C6_fast_track_amended :
    ∀ (target_agent_name query : String),
      should_fast_track_to_planner target_agent_name query =
        fast_track_amended_rule target_agent_name query ∧
      triager_invoked target_agent_name query = decide (target_agent_name = superAgentName) := by
  intro t q
  by_cases h : t = superAgentName
  · subst h
    constructor
    · simp [should_fast_track_to_planner, fast_track_amended_rule]
    · simp [triager_invoked, should_fast_track_to_planner]
  · constructor
    · simp only [should_fast_track_to_planner, fast_track_amended_rule,
        fast_track_keyword_rule, if_neg h]
      simp [h]
    · simp [triager_invoked, h]

/-- C7: the session stream of `_generate_responses` ends with a `done` event
on every exit path; a session-level error contributes a `system_failed`
event immediately followed by that final `done`, and nothing is emitted
after it. -/
theorem C7_stream_always_ends_with_done :
    ∀ (conversation_id : String) (body : List Event) (error : Option String),
      (generate_responses conversation_id body error).getLast? =
        some (mkDone conversation_id) ∧
      (∀ msg, error = some msg →
        generate_responses conversation_id body error =
          body ++ [mkSystemFailed conversation_id ("(Error) Error processing request: " ++ msg),
                   mkDone conversation_id]) ∧
      (error = none →
        generate_responses conversation_id body error = body ++ [mkDone conversation_id]) := by
  intro cid body err
  refine ⟨?_, ?_, ?_⟩
  · unfold generate_responses
    cases err <;> simp
  · intro msg h
    subst h
    simp [generate_responses]
  · intro h
    subst h
    simp [generate_responses]

/-- Witness for C7 at a concrete failing session: the stream is exactly
`system_failed` followed by the final `done`. -/
theorem C7_stream_always_ends_with_done_witness :
    (generate_responses "conv" [] (some "boom")).getLast? = some (mkDone "conv") ∧
    generate_responses "conv" [] (some "boom") =
      [mkSystemFailed "conv" ("(Error) Error processing request: " ++ "boom"),
       mkDone "conv"] := by
  have h := C7_stream_always_ends_with_done "conv" [] (some "boom")
  exact ⟨h.1, h.2.1 "boom" rfl⟩

/-- C10: a plan with a truthy guidance message produces exactly one event — a
`message_chunk` from agent "Planner" carrying the guidance text — and
nothing else: no task of the plan is started and no lifecycle event is
emitted, regardless of `plan.tasks`. -/
theorem C10_guidance_short_circuits_execution :
    ∀ (fresh_task_id : String) (plan : ExecutionPlan) (g : String)
      (outcomes : String → TaskOutcome),
      plan.guidance_message = some g → g ≠ "" →
      execute_plan fresh_task_id plan outcomes =
        [{ event := EventKind.message_chunk, conversation_id := plan.conversation_id,
           task_id := some fresh_task_id, agent_name := some "Planner",
           content := some g, component_type := none }] ∧
      ∀ e ∈ execute_plan fresh_task_id plan outcomes, e.event = EventKind.message_chunk := by
  intro fid plan g outcomes hg hne
  have ht : truthyOpt plan.guidance_message = true := by simp [truthyOpt, hg, hne]
  have h1 : execute_plan fid plan outcomes = [mkPlannerGuidance plan fid] := by
    unfold execute_plan
    rw [if_pos ht]
  have h2 : mkPlannerGuidance plan fid =
      { event := EventKind.message_chunk, conversation_id := plan.conversation_id,
        task_id := some fid, agent_name := some "Planner",
        content := some g, component_type := none } := by
    simp [mkPlannerGuidance, hg]
  refine ⟨by rw [h1, h2], ?_⟩
  intro e he
  rw [h1] at he
  simp only [List.mem_singleton] at he
  subst he
  rfl

/-- Witness for C10 at a concrete plan whose planner asked for confirmation
and which nevertheless carries a (non-executed) task. -/
theorem C10_guidance_short_circuits_execution_witness :
    execute_plan "fresh" exPlanGuidance exOutcomes =
      [{ event := EventKind.message_chunk,
         conversation_id := exPlanGuidance.conversation_id,
         task_id := some "fresh", agent_name := some "Planner",
         content := some "please confirm", component_type := none }] ∧
    exPlanGuidance.tasks ≠ [] := by
  refine ⟨(C10_guidance_short_circuits_execution "fresh" exPlanGuidance "please confirm"
    exOutcomes rfl (by decide)).1, by decide⟩

/-- Closed form of the accumulator's consume loop: the passthrough is the
`pass_keep` filter of the responses and the buffer grows by the truthy
message contents, in order. -/
theorem consumeLoop_eq (buffer : List String) (responses : List Event) :
    consumeLoop buffer responses =
      (responses.filter pass_keep, buffer ++ responses.filterMap message_buffer_content) := by
  induction responses generalizing buffer with
  | nil => simp [consumeLoop]
  | cons r rs ih =>
    by_cases hm : EventPredicates.is_message r.event
    · have hk : pass_keep r = false := by simp [pass_keep, hm]
      have hmb : message_buffer_content r =
          match r.content with
          | some c => if c = "" then none else some c
          | none => none := by
        simp [message_buffer_content, hm]
      match hc : r.content with
      | none =>
        simp [consumeLoop, hm, hk, ih, List.filter_cons, hmb, hc,
          List.filterMap_cons]
      | some c =>
        by_cases hce : c = ""
        · simp [consumeLoop, hm, hk, ih, List.filter_cons, hmb, hc, hce,
            List.filterMap_cons]
        · simp [consumeLoop, hm, hk, ih, List.filter_cons, hmb, hc, hce,
            List.filterMap_cons]
    · by_cases hr : EventPredicates.is_reasoning r.event
      · have hk : pass_keep r = false := by simp [pass_keep, hr]
        have hmb : message_buffer_content r = none := by simp [message_buffer_content, hm]
        simp [consumeLoop, hm, hr, hk, ih, List.filter_cons, hmb, List.filterMap_cons]
      · by_cases htc : EventPredicates.is_tool_call r.event
        · have hk : pass_keep r = false := by simp [pass_keep, htc]
          have hmb : message_buffer_content r = none := by simp [message_buffer_content, hm]
          simp [consumeLoop, hm, hr, htc, hk, ih, List.filter_cons, hmb, List.filterMap_cons]
        · have hk : pass_keep r = true := by simp [pass_keep, hm, hr, htc]
          have hmb : message_buffer_content r = none := by simp [message_buffer_content, hm]
          simp [consumeLoop, hm, hr, htc, hk, ih, List.filter_cons, hmb, List.filterMap_cons]

/-- C5 amended: for a RECURRING task the accumulator's `consume` drops
reasoning and tool-call events, removes message events while appending their
truthy contents to the buffer, and passes every other event through
unchanged; `finalize` produces a single `schedule_task_result` component
whose result is the whitespace-stripped concatenation of the buffered
contents, or the placeholder "Task completed without output." when that
strip is empty. For a ONCE task `consume` is the identity and `finalize`
produces nothing. -/
theorem C5_accumulator_behaviour :
    ∀ (t : Task) (buffer : List String) (responses : List Event),
      (t.is_scheduled = true →
        ScheduledTaskResultAccumulator.consume ⟨t, buffer⟩ responses =
          (responses.filter pass_keep,
           ⟨t, buffer ++ responses.filterMap message_buffer_content⟩) ∧
        ScheduledTaskResultAccumulator.finalize ⟨t, buffer⟩ =
          some (mkScheduleTaskResult t (strip_or_default (String.join buffer)))) ∧
      (t.is_scheduled = false →
        ScheduledTaskResultAccumulator.consume ⟨t, buffer⟩ responses = (responses, ⟨t, buffer⟩) ∧
        ScheduledTaskResultAccumulator.finalize ⟨t, buffer⟩ = none) := by
  intro t buffer responses
  constructor
  · intro hs
    have he : ScheduledTaskResultAccumulator.enabled ⟨t, buffer⟩ = true := hs
    constructor
    · simp [ScheduledTaskResultAccumulator.consume, he, consumeLoop_eq]
    · simp [ScheduledTaskResultAccumulator.finalize, he, strip_or_default]
  · intro hs
    have he : ScheduledTaskResultAccumulator.enabled ⟨t, buffer⟩ = false := hs
    constructor
    · simp [ScheduledTaskResultAccumulator.consume, he]
    · simp [ScheduledTaskResultAccumulator.finalize, he]

/-- Witness for C5 at a concrete recurring task: consuming a message, a
reasoning event and a done marker buffers the message content, passes only
the done marker through, and finalize emits the stripped concatenation. -/
theorem C5_accumulator_behaviour_witness :
    ScheduledTaskResultAccumulator.consume ⟨exRecurringTask, [" x"]⟩
        [{ event := EventKind.message_chunk, conversation_id := "c", task_id := none,
           agent_name := none, content := some "y ", component_type := none },
         { event := EventKind.reasoning, conversation_id := "c", task_id := none,
           agent_name := none, content := some "θ", component_type := none },
         mkDone "c"] =
      ([mkDone "c"], ⟨exRecurringTask, [" x", "y "]⟩) ∧
    ScheduledTaskResultAccumulator.finalize ⟨exRecurringTask, [" x", "y "]⟩ =
      some (mkScheduleTaskResult exRecurringTask "xy") ∧
    ScheduledTaskResultAccumulator.consume ⟨exTaskA, [" x"]⟩ [mkDone "c"] =
      ([mkDone "c"], ⟨exTaskA, [" x"]⟩) := by
  have h1 := C5_accumulator_behaviour exRecurringTask [" x"]
    [{ event := EventKind.message_chunk, conversation_id := "c", task_id := none,
       agent_name := none, content := some "y ", component_type := none },
     { event := EventKind.reasoning, conversation_id := "c", task_id := none,
       agent_name := none, content := some "θ", component_type := none },
     mkDone "c"]
  have h2 := C5_accumulator_behaviour exRecurringTask [" x", "y "] []
  have h3 := C5_accumulator_behaviour exTaskA [" x"] [mkDone "c"]
  refine ⟨?_, ?_, ?_⟩
  · have := (h1.1 (by decide)).1
    rw [this]
    decide
  · have := (h2.1 (by decide)).2
    rw [this]
    decide
  · exact (h3.2 (by decide)).1

/-- C5 counterexample: for a RECURRING task that produced no message output,
`finalize` emits the placeholder "Task completed without output.", not the
(empty) concatenation of the buffered message contents that the claim
prescribes. -/
theorem C5_counterexample :
    ScheduledTaskResultAccumulator.finalize ⟨exRecurringTask, []⟩ =
      some (mkScheduleTaskResult exRecurringTask "Task completed without output.") ∧
    String.join [] = "" ∧ ("Task completed without output." : String) ≠ "" := by
  refine ⟨by decide, rfl, by decide⟩

/-- The rewrite never changes an item's id. -/
theorem update_controller_item_id (item : StoredItem) :
    (update_controller_item item).item_id = item.item_id := by
  unfold update_controller_item
  rcases item.payload with _ | ⟨c, r⟩
  · rfl
  · rcases c with _ | _ | (_ | cc) <;> rfl

/-- The rewrite leaves the `event` and `component_type` columns alone. -/
theorem update_controller_item_controller (item : StoredItem) :
    is_controller_item (update_controller_item item) = is_controller_item item := by
  unfold update_controller_item
  rcases item.payload with _ | ⟨c, r⟩
  · rfl
  · rcases c with _ | _ | (_ | cc) <;> rfl

/-- Updating an item whose update applies marks its payload cancelled. -/
theorem update_controller_item_status (item : StoredItem)
    (h : item_update_applies item = true) :
    item_status_cancelled (update_controller_item item) = true := by
  unfold item_update_applies at h
  unfold update_controller_item item_status_cancelled
  rcases hp : item.payload with _ | ⟨c, r⟩
  · rw [hp] at h
    exact absurd h (by simp)
  · rw [hp] at h
    rcases c with _ | _ | (_ | cc) <;>
      first
        | rfl
        | exact absurd h (by simp)

/-- A rewritten matching item still matches, its update still applies, and a
second rewrite does nothing. -/
theorem update_controller_item_stable (item : StoredItem) (tid : String)
    (hm : item_matches_task item tid = true) (ha : item_update_applies item = true) :
    item_matches_task (update_controller_item item) tid = true ∧
    item_update_applies (update_controller_item item) = true ∧
    update_controller_item (update_controller_item item) = update_controller_item item := by
  unfold item_update_applies at ha
  unfold item_matches_task at hm
  rcases hp : item.payload with _ | ⟨c, r⟩
  · rw [hp] at ha
    exact absurd ha (by simp)
  · rw [hp] at ha hm
    rcases c with _ | _ | (_ | cc)
    case some.mk.absent =>
      have hcol : item.task_id = some tid := by
          by_cases h : item.task_id = some tid
          · exact h
          · rw [if_neg h] at hm
            simp at hm
      have he : update_controller_item item =
          { item with payload := some (ItemPayload.mk (ContentField.str_enc (some (ControllerContent.mk none (some "cancelled") []))) r) } := by
          unfold update_controller_item
          rw [hp]
      rw [he]
      refine ⟨?_, ?_, ?_⟩
      · unfold item_matches_task
        simp [hcol]
      · rfl
      · unfold update_controller_item
        rfl
    case some.mk.non_string =>
      have hcol : item.task_id = some tid := by
          by_cases h : item.task_id = some tid
          · exact h
          · rw [if_neg h] at hm
            simp at hm
      have he : update_controller_item item =
          { item with payload := some (ItemPayload.mk (ContentField.str_enc (some (ControllerContent.mk none (some "cancelled") []))) r) } := by
          unfold update_controller_item
          rw [hp]
      rw [he]
      refine ⟨?_, ?_, ?_⟩
      · unfold item_matches_task
        simp [hcol]
      · rfl
      · unfold update_controller_item
        rfl
    case some.mk.str_enc.none =>
      simp at ha
    case some.mk.str_enc.some =>
      have he : update_controller_item item =
          { item with payload := some (ItemPayload.mk (ContentField.str_enc (some { cc with task_status := some "cancelled" })) r) } := by
          unfold update_controller_item
          rw [hp]
      rw [he]
      refine ⟨?_, ?_, ?_⟩
      · unfold item_matches_task
        by_cases hcol : item.task_id = some tid
        · simp [hcol]
        · rw [if_neg hcol] at hm
          simp only at hm
          simp [hcol]
          simp at hm
          exact hm
      · rfl
      · unfold update_controller_item
        rfl


/-- One pass of the per-item rewrite is idempotent. -/
theorem cancel_item_rewrite_idem (tid : String) (item : StoredItem) :
    cancel_item_rewrite tid (cancel_item_rewrite tid item) = cancel_item_rewrite tid item := by
  by_cases h : item_should_update tid item = true
  · have hparts := h
    simp only [item_should_update, Bool.and_eq_true] at hparts
    obtain ⟨⟨hctrl, hm⟩, ha⟩ := hparts
    have hs := update_controller_item_stable item tid hm ha
    have hupd : item_should_update tid (update_controller_item item) = true := by
      simp only [item_should_update, Bool.and_eq_true]
      exact ⟨⟨by rw [update_controller_item_controller]; exact hctrl, hs.1⟩, hs.2.1⟩
    simp [cancel_item_rewrite, h, hupd, hs.2.2]
  · have h' : item_should_update tid item = false := by
      exact Bool.eq_false_iff.mpr (fun hc => h hc)
    simp [cancel_item_rewrite, h']

/-- C9 counterexample: a persisted `scheduled_task_controller` item whose
`task_id` column references the cancelled task but whose stored payload
string `json.loads` rejects is left completely unchanged by the endpoint —
its payload is never set to `task_status = "cancelled"`, contradicting
"updates every persisted item referencing that taskId". -/
theorem C9_counterexample :
    is_controller_item exBadItem = true ∧
    item_matches_task exBadItem "t" = true ∧
    (cancel_and_update_component [exBadItem] exTaskMap "t").store = [exBadItem] ∧
    item_status_cancelled exBadItem = false := by
  refine ⟨by decide, by decide, ?_, by decide⟩
  show ([exBadItem].map (cancel_item_rewrite "t")) = [exBadItem]
  decide

/-- C9 amended: the cancel endpoint updates, in place, every persisted
`component_generator` item of type `scheduled_task_controller` that
references the task id and whose stored payload (and embedded content
string) is JSON-parseable, setting its `task_status` to "cancelled"
regardless of whether the task exists in memory; and the operation is
idempotent — a second call leaves both the persisted items and the task
registry exactly as after the first.  -/
theorem C9_cancel_endpoint_amended :
    ∀ (store : List StoredItem) (tasks : String → Option TaskStatus) (tid : String),
      (∀ (i : ℕ) item, store[i]? = some item →
        is_controller_item item = true → item_matches_task item tid = true →
        item_update_applies item = true →
        ∃ item', ((cancel_and_update_component store tasks tid).store)[i]? = some item' ∧
          item'.item_id = item.item_id ∧ item_status_cancelled item' = true) ∧
      (cancel_and_update_component (cancel_and_update_component store tasks tid).store
          (cancel_and_update_component store tasks tid).tasks tid).store =
        (cancel_and_update_component store tasks tid).store ∧
      (∀ x, (cancel_and_update_component (cancel_and_update_component store tasks tid).store
          (cancel_and_update_component store tasks tid).tasks tid).tasks x =
        (cancel_and_update_component store tasks tid).tasks x) := by
  intro store tasks tid
  refine ⟨?_, ?_, ?_⟩
  · intro i item hi hc hm ha
    refine ⟨cancel_item_rewrite tid item, ?_, ?_, ?_⟩
    · show (store.map (cancel_item_rewrite tid))[i]? = _
      rw [List.getElem?_map, hi]
      rfl
    · have hs : item_should_update tid item = true := by
        simp [item_should_update, hc, hm, ha]
      rw [cancel_item_rewrite, if_pos hs]
      exact update_controller_item_id item
    · have hs : item_should_update tid item = true := by
        simp [item_should_update, hc, hm, ha]
      rw [cancel_item_rewrite, if_pos hs]
      exact update_controller_item_status item ha
  · show ((store.map (cancel_item_rewrite tid)).map (cancel_item_rewrite tid)) = _
    rw [List.map_map]
    exact List.map_congr_left (fun item _ => cancel_item_rewrite_idem tid item)
  · intro x
    show (cancel_task (cancel_task tasks tid).1 tid).1 x = (cancel_task tasks tid).1 x
    rcases h : tasks tid with _ | s
    · simp [cancel_task, h]
    · have h1 : (cancel_task tasks tid).1 =
          fun y => if y = tid then some TaskStatus.cancelled else tasks y := by
        simp [cancel_task, h]
      rw [h1]
      have h2 : (fun y => if y = tid then some TaskStatus.cancelled else tasks y) tid =
          some TaskStatus.cancelled := by simp
      simp only [cancel_task, h2]
      by_cases hx : x = tid <;> simp [hx]

/-- Witness for C9 at a concrete store holding one well-formed matching
controller item and a running task: the item at position 0 comes back with
the same id and a cancelled payload. -/
theorem C9_cancel_endpoint_amended_witness :
    (∃ item', ((cancel_and_update_component [exGoodItem] exTaskMap "t").store)[(0 : ℕ)]? = some item' ∧
      item'.item_id = exGoodItem.item_id ∧ item_status_cancelled item' = true) ∧
    (cancel_and_update_component (cancel_and_update_component [exGoodItem] exTaskMap "t").store
        (cancel_and_update_component [exGoodItem] exTaskMap "t").tasks "t").store =
      (cancel_and_update_component [exGoodItem] exTaskMap "t").store := by
  have h := C9_cancel_endpoint_amended [exGoodItem] exTaskMap "t"
  exact ⟨h.1 0 exGoodItem rfl (by decide) (by decide) (by decide), h.2.1⟩

/-- `enumMap` preserves length. -/
theorem enumMap_length (f : ℕ → String → Task) (start : ℕ) (l : List String) :
    (enumMap f start l).length = l.length := by
  induction l generalizing start with
  | nil => rfl
  | cons a rest ih => simp [enumMap, ih]

/-- Every element of an `enumMap` comes from an element of the list. -/
theorem mem_enumMap {f : ℕ → String → Task} {start : ℕ} {l : List String} :
    ∀ t ∈ enumMap f start l, ∃ i a, a ∈ l ∧ t = f i a := by
  induction l generalizing start with
  | nil =>
    intro t ht
    simp [enumMap] at ht
  | cons a rest ih =>
    intro t ht
    simp only [enumMap, List.mem_cons] at ht
    rcases ht with h | h
    · exact ⟨start, a, List.mem_cons_self a rest, h⟩
    · obtain ⟨i, b, hb, he⟩ := ih t h
      exact ⟨i, b, List.mem_cons_of_mem a hb, he⟩

/-- Agents classified as independent are not the synthesis agent. -/
theorem independent_ne_strategy {a : String}
    (h : independent_agent_names.contains a = true) : a ≠ "StrategyAgent" := by
  simp only [independent_agent_names] at h
  simp at h
  rcases h with h | h <;> subst h <;> decide

/-- Shape of the direct plan when both a synthesis agent and at least one
independent agent were recommended (`planner.py` lines 372-392). -/
theorem create_tasks_strategy_split (fresh : FreshIds) (desc : String → String → String)
    (user_id query : String) (recs : List String)
    (hdep_ne : recs.filter (fun a => a = "StrategyAgent") ≠ [])
    (hind_ne : recs.filter (fun a => independent_agent_names.contains a) ≠ []) :
    create_tasks_from_recommendations fresh desc user_id query recs =
      enumMap (fun i a => mkRecommendationTask fresh i user_id a (desc a query) query []) 0
        (recs.filter (fun a => independent_agent_names.contains a)) ++
      enumMap (fun i a => mkRecommendationTask fresh i user_id a (desc a query) query
          ((enumMap (fun i a => mkRecommendationTask fresh i user_id a (desc a query) query []) 0
            (recs.filter (fun a => independent_agent_names.contains a))).map Task.task_id))
        (recs.filter (fun a => independent_agent_names.contains a)).length
        (recs.filter (fun a => a = "StrategyAgent")) := by
  have h1 : (recs.filter (fun a => a = "StrategyAgent")).isEmpty = false :=
    List.isEmpty_eq_false.mpr hdep_ne
  have h2 : (enumMap (fun i a => mkRecommendationTask fresh i user_id a (desc a query) query []) 0
      (recs.filter (fun a => independent_agent_names.contains a))).isEmpty = false := by
    rw [List.isEmpty_eq_false]
    intro h
    have hl := enumMap_length (fun i a =>
      mkRecommendationTask fresh i user_id a (desc a query) query []) 0
      (recs.filter (fun a => independent_agent_names.contains a))
    rw [h] at hl
    exact hind_ne (List.length_eq_zero.mp hl.symm)
  simp only [create_tasks_from_recommendations]
  rw [if_pos (by rw [h1, h2]; rfl)]

/-- Shape of the direct plan when no synthesis agent was recommended. -/
theorem create_tasks_no_strategy (fresh : FreshIds) (desc : String → String → String)
    (user_id query : String) (recs : List String)
    (hdep_nil : recs.filter (fun a => a = "StrategyAgent") = []) :
    create_tasks_from_recommendations fresh desc user_id query recs =
      enumMap (fun i a => mkRecommendationTask fresh i user_id a (desc a query) query []) 0
        (recs.filter (fun a => independent_agent_names.contains a)) := by
  have h1 : (recs.filter (fun a => a = "StrategyAgent")).isEmpty = true := by
    rw [hdep_nil]
    rfl
  simp only [create_tasks_from_recommendations]
  rw [if_neg (by rw [h1]; simp), if_neg (by rw [h1]; simp)]

/-- Structure facts about a plan made of independent tasks followed by
synthesis tasks. -/
theorem plan_facts_of_append (indT depT : List Task)
    (hindS : ∀ t ∈ indT, t.agent_name ≠ "StrategyAgent")
    (hindDeps : ∀ t ∈ indT, t.depends_on = [])
    (hdepS : ∀ t ∈ depT, t.agent_name = "StrategyAgent")
    (hdepDeps : ∀ t ∈ depT, t.depends_on = indT.map Task.task_id) :
    (∀ t ∈ indT ++ depT, t.agent_name ≠ "StrategyAgent" → t.depends_on = []) ∧
    ((indT ++ depT).filter (fun t => t.agent_name = "StrategyAgent")).length = depT.length ∧
    (∀ t ∈ indT ++ depT, t.agent_name = "StrategyAgent" →
      t.depends_on =
        ((indT ++ depT).filter (fun t' => t'.agent_name ≠ "StrategyAgent")).map Task.task_id) := by
  have hf1 : indT.filter (fun t => t.agent_name = "StrategyAgent") = [] := by
    rw [List.filter_eq_nil_iff]
    intro t ht
    simpa using hindS t ht
  have hf2 : depT.filter (fun t => t.agent_name = "StrategyAgent") = depT := by
    rw [List.filter_eq_self]
    intro t ht
    simpa using hdepS t ht
  have hf3 : indT.filter (fun t' => t'.agent_name ≠ "StrategyAgent") = indT := by
    rw [List.filter_eq_self]
    intro t ht
    simpa using hindS t ht
  have hf4 : depT.filter (fun t' => t'.agent_name ≠ "StrategyAgent") = [] := by
    rw [List.filter_eq_nil_iff]
    intro t ht
    simpa using hdepS t ht
  refine ⟨?_, ?_, ?_⟩
  · intro t ht hne
    rcases List.mem_append.mp ht with h | h
    · exact hindDeps t h
    · exact absurd (hdepS t h) hne
  · rw [List.filter_append, hf1, hf2, List.nil_append]
  · intro t ht hS
    rcases List.mem_append.mp ht with h | h
    · exact absurd hS (hindS t h)
    · rw [List.filter_append, hf3, hf4, List.append_nil]
      exact hdepDeps t h

/-- C3 counterexample: with recommended agents `[ResearchAgent,
HKStockAgent]` the direct (LLM-free) path is taken, but the plan holds one
task, not two: agents outside {ResearchAgent, NewsAgent, StrategyAgent} are
silently dropped, so `len(tasks) == len(recommendedAgents)` fails. -/
theorem C3_counterexample :
    analyze_input_path exFresh exDesc "u" "q" (some ["ResearchAgent", "HKStockAgent"]) =
      PlannerPath.direct
        (create_tasks_from_recommendations exFresh exDesc "u" "q"
          ["ResearchAgent", "HKStockAgent"]) ∧
    (create_tasks_from_recommendations exFresh exDesc "u" "q"
      ["ResearchAgent", "HKStockAgent"]).length = 1 ∧
    (["ResearchAgent", "HKStockAgent"] : List String).length = 2 := by
  refine ⟨rfl, rfl, rfl⟩

/-- C3 amended: when the Triager recommends at least two agents, all of them
drawn (without repetition) from {ResearchAgent, NewsAgent, StrategyAgent},
the Planner skips the LLM and builds the plan deterministically with
`len(tasks) == len(recommendedAgents)`: every non-synthesis agent becomes an
independent task with empty `dependsOn`, and when StrategyAgent is
recommended there is exactly one synthesis task, depending on precisely the
independent tasks. -/
theorem C3_recommendation_plan_amended :
    ∀ (fresh : FreshIds) (desc : String → String → String) (user_id query : String)
      (recs : List String),
      recs.Nodup →
      (∀ a ∈ recs, a ∈ ["ResearchAgent", "NewsAgent", "StrategyAgent"]) →
      2 ≤ recs.length →
      analyze_input_path fresh desc user_id query (some recs) =
        PlannerPath.direct (create_tasks_from_recommendations fresh desc user_id query recs) ∧
      (create_tasks_from_recommendations fresh desc user_id query recs).length = recs.length ∧
      (∀ t ∈ create_tasks_from_recommendations fresh desc user_id query recs,
        t.agent_name ≠ "StrategyAgent" → t.depends_on = []) ∧
      ((create_tasks_from_recommendations fresh desc user_id query recs).filter
          (fun t => t.agent_name = "StrategyAgent")).length =
        (if "StrategyAgent" ∈ recs then 1 else 0) ∧
      (∀ t ∈ create_tasks_from_recommendations fresh desc user_id query recs,
        t.agent_name = "StrategyAgent" →
        t.depends_on =
          ((create_tasks_from_recommendations fresh desc user_id query recs).filter
            (fun t' => t'.agent_name ≠ "StrategyAgent")).map Task.task_id) := by
  intro fresh desc user_id query recs hnodup hsub hlen
  have hpath : analyze_input_path fresh desc user_id query (some recs) =
      PlannerPath.direct (create_tasks_from_recommendations fresh desc user_id query recs) := by
    have hred : analyze_input_path fresh desc user_id query (some recs) =
        if recs.length > 1 then
          PlannerPath.direct (create_tasks_from_recommendations fresh desc user_id query recs)
        else PlannerPath.llm := rfl
    rw [hred, if_pos (by omega)]
  have hsub' : ∀ a ∈ recs, a = "ResearchAgent" ∨ a = "NewsAgent" ∨ a = "StrategyAgent" := by
    intro a ha
    have := hsub a ha
    simpa using this
  have hpart :
      (recs.filter (fun a => independent_agent_names.contains a)).length +
        (recs.filter (fun a => a = "StrategyAgent")).length = recs.length := by
    have hcongr : recs.filter (fun a => decide (a = "StrategyAgent")) =
        recs.filter (fun a => !independent_agent_names.contains a) :=
      List.filter_congr (fun a ha => by
        rcases hsub' a ha with h | h | h <;> subst h <;> rfl)
    calc (recs.filter (fun a => independent_agent_names.contains a)).length +
          (recs.filter (fun a => decide (a = "StrategyAgent"))).length
        = (recs.filter (fun a => independent_agent_names.contains a)).length +
          (recs.filter (fun a => !independent_agent_names.contains a)).length := by rw [hcongr]
      _ = (recs.filter (fun a => independent_agent_names.contains a) ++
            recs.filter (fun a => !independent_agent_names.contains a)).length := by
            rw [List.length_append]
      _ = recs.length := (List.filter_append_perm _ recs).length_eq
  have hdep_all : ∀ a ∈ recs.filter (fun a => a = "StrategyAgent"), a = "StrategyAgent" := by
    intro a ha
    have := (List.mem_filter.mp ha).2
    simpa using this
  have hind_contains : ∀ a ∈ recs.filter (fun a => independent_agent_names.contains a),
      independent_agent_names.contains a = true := fun a ha => (List.mem_filter.mp ha).2
  -- facts about the independent task list
  have hindS : ∀ t ∈ enumMap (fun i a =>
      mkRecommendationTask fresh i user_id a (desc a query) query []) 0
      (recs.filter (fun a => independent_agent_names.contains a)),
      t.agent_name ≠ "StrategyAgent" := by
    intro t ht
    obtain ⟨i, a, ha, he⟩ := mem_enumMap t ht
    subst he
    exact independent_ne_strategy (hind_contains a ha)
  have hindDeps : ∀ t ∈ enumMap (fun i a =>
      mkRecommendationTask fresh i user_id a (desc a query) query []) 0
      (recs.filter (fun a => independent_agent_names.contains a)),
      t.depends_on = [] := by
    intro t ht
    obtain ⟨i, a, _, he⟩ := mem_enumMap t ht
    subst he
    rfl
  by_cases hS : "StrategyAgent" ∈ recs
  · -- a synthesis agent is present: exactly one strategy entry
    have hdep_ne : recs.filter (fun a => a = "StrategyAgent") ≠ [] := by
      apply List.ne_nil_of_mem (a := "StrategyAgent")
      exact List.mem_filter.mpr ⟨hS, by decide⟩
    have hdep_le : (recs.filter (fun a => a = "StrategyAgent")).length ≤ 1 := by
      have hnd : (recs.filter (fun a => a = "StrategyAgent")).Nodup := hnodup.filter _
      match hl : recs.filter (fun a => a = "StrategyAgent") with
      | [] => simp
      | [x] => simp
      | x :: y :: rest =>
        have hx : x = "StrategyAgent" := hdep_all x (by rw [hl]; exact List.mem_cons_self _ _)
        have hy : y = "StrategyAgent" :=
          hdep_all y (by rw [hl]; exact List.mem_cons_of_mem _ (List.mem_cons_self _ _))
        rw [hl] at hnd
        rcases List.nodup_cons.mp hnd with ⟨hnx, _⟩
        exact absurd (by rw [hx, hy]; exact List.mem_cons_self _ _) hnx
    have hdep_len : (recs.filter (fun a => a = "StrategyAgent")).length = 1 := by
      have := List.length_pos.mpr hdep_ne
      omega
    have hind_ne : recs.filter (fun a => independent_agent_names.contains a) ≠ [] := by
      rw [← List.length_pos]
      omega
    have heq := create_tasks_strategy_split fresh desc user_id query recs hdep_ne hind_ne
    have hdepS : ∀ t ∈ enumMap (fun i a =>
        mkRecommendationTask fresh i user_id a (desc a query) query
          ((enumMap (fun i a => mkRecommendationTask fresh i user_id a (desc a query) query []) 0
            (recs.filter (fun a => independent_agent_names.contains a))).map Task.task_id))
        (recs.filter (fun a => independent_agent_names.contains a)).length
        (recs.filter (fun a => a = "StrategyAgent")),
        t.agent_name = "StrategyAgent" := by
      intro t ht
      obtain ⟨i, a, ha, he⟩ := mem_enumMap t ht
      subst he
      exact hdep_all a ha
    have hdepDeps : ∀ t ∈ enumMap (fun i a =>
        mkRecommendationTask fresh i user_id a (desc a query) query
          ((enumMap (fun i a => mkRecommendationTask fresh i user_id a (desc a query) query []) 0
            (recs.filter (fun a => independent_agent_names.contains a))).map Task.task_id))
        (recs.filter (fun a => independent_agent_names.contains a)).length
        (recs.filter (fun a => a = "StrategyAgent")),
        t.depends_on =
          (enumMap (fun i a => mkRecommendationTask fresh i user_id a (desc a query) query []) 0
            (recs.filter (fun a => independent_agent_names.contains a))).map Task.task_id := by
      intro t ht
      obtain ⟨i, a, _, he⟩ := mem_enumMap t ht
      subst he
      rfl
    have hfacts := plan_facts_of_append _ _ hindS hindDeps hdepS hdepDeps
    refine ⟨hpath, ?_, ?_, ?_, ?_⟩
    · rw [heq, List.length_append, enumMap_length, enumMap_length]
      omega
    · rw [heq]
      exact hfacts.1
    · rw [heq, hfacts.2.1, enumMap_length, hdep_len, if_pos hS]
    · rw [heq]
      exact hfacts.2.2
  · -- no synthesis agent recommended
    have hdep_nil : recs.filter (fun a => a = "StrategyAgent") = [] := by
      rw [List.filter_eq_nil_iff]
      intro a ha h
      have : a = "StrategyAgent" := by simpa using h
      exact hS (this ▸ ha)
    have heq := create_tasks_no_strategy fresh desc user_id query recs hdep_nil
    refine ⟨hpath, ?_, ?_, ?_, ?_⟩
    · rw [heq, enumMap_length]
      have : (recs.filter (fun a => a = "StrategyAgent")).length = 0 := by
        rw [hdep_nil]
        rfl
      omega
    · intro t ht _
      rw [heq] at ht
      exact hindDeps t ht
    · rw [heq, if_neg hS]
      rw [List.length_eq_zero, List.filter_eq_nil_iff]
      intro t ht
      simpa using hindS t ht
    · intro t ht hSt
      rw [heq] at ht
      exact absurd hSt (hindS t ht)

/-- Witness for C3 at the three standard agents: the direct plan has three
tasks, the strategy task closing over the two independent ones. -/
theorem C3_recommendation_plan_amended_witness :
    analyze_input_path exFresh exDesc "u" "q"
        (some ["ResearchAgent", "NewsAgent", "StrategyAgent"]) =
      PlannerPath.direct (create_tasks_from_recommendations exFresh exDesc "u" "q"
        ["ResearchAgent", "NewsAgent", "StrategyAgent"]) ∧
    (create_tasks_from_recommendations exFresh exDesc "u" "q"
      ["ResearchAgent", "NewsAgent", "StrategyAgent"]).length = 3 ∧
    ((create_tasks_from_recommendations exFresh exDesc "u" "q"
      ["ResearchAgent", "NewsAgent", "StrategyAgent"]).filter
        (fun t => t.agent_name = "StrategyAgent")).length = 1 := by
  have h := C3_recommendation_plan_amended exFresh exDesc "u" "q"
    ["ResearchAgent", "NewsAgent", "StrategyAgent"] (by decide) (by decide) (by decide)
  refine ⟨h.1, h.2.1, ?_⟩
  rw [h.2.2.2.1, if_pos (by decide)]

/-! ### Properties of the batch builder -/

/-- Peeling an empty remainder yields no batches. -/
theorem peelBatches_nil (fuel : ℕ) (completed : List String) :
    peelBatches fuel [] completed = [] := by
  cases fuel <;> rfl

/-- Counting inside a filter. -/
theorem count_filter_eq (p : Task → Bool) (l : List Task) (t : Task) :
    (l.filter p).count t = if p t then l.count t else 0 := by
  by_cases h : p t = true
  · rw [if_pos h]
    exact List.count_filter h
  · rw [if_neg h]
    rw [List.count_eq_zero]
    intro hm
    exact h (List.mem_filter.mp hm).2

/-- The one-step unfolding of `peelBatches` on a non-empty remainder. -/
theorem peelBatches_cons (fuel : ℕ) (rem : List Task) (completed : List String)
    (hne : rem ≠ []) :
    peelBatches (fuel + 1) rem completed =
      (if (ready_filter completed rem).isEmpty then rem else ready_filter completed rem) ::
        peelBatches fuel
          (rem.filter (fun t =>
            !((if (ready_filter completed rem).isEmpty then rem
               else ready_filter completed rem).map Task.task_id).contains t.task_id))
          (completed ++
            (if (ready_filter completed rem).isEmpty then rem
             else ready_filter completed rem).map Task.task_id) := by
  simp only [peelBatches]
  rw [if_neg (by simp [List.isEmpty_eq_false, hne])]

/-- Every task of a produced batch lies in the remainder that produced it. -/
theorem peel_flatten_subset :
    ∀ (fuel : ℕ) (rem : List Task) (completed : List String) (t : Task),
      t ∈ (peelBatches fuel rem completed).flatten → t ∈ rem := by
  intro fuel
  induction fuel with
  | zero =>
    intro rem completed t ht
    simp [peelBatches] at ht
  | succ fuel ih =>
    intro rem completed t ht
    by_cases hre : rem = []
    · subst hre
      rw [peelBatches_nil] at ht
      simp at ht
    · rw [peelBatches_cons fuel rem completed hre] at ht
      rw [List.flatten_cons, List.mem_append] at ht
      rcases ht with h | h
      · by_cases h0 : (ready_filter completed rem).isEmpty
        · rwa [if_pos h0] at h
        · rw [if_neg h0] at h
          exact (List.mem_filter.mp h).1
      · have := ih _ _ t h
        exact (List.mem_filter.mp this).1

/-- With pairwise-distinct task ids, peeling preserves the multiset of
tasks: every task of the remainder lands in the batches exactly as often as
it occurs in the remainder. -/
theorem peel_flatten_count :
    ∀ (fuel : ℕ) (rem : List Task) (completed : List String),
      rem.length ≤ fuel → (rem.map Task.task_id).Nodup →
      ∀ t : Task, ((peelBatches fuel rem completed).flatten).count t = rem.count t := by
  intro fuel
  induction fuel with
  | zero =>
    intro rem c hlen _ t
    have hre : rem = [] := by
      cases rem with
      | nil => rfl
      | cons a l => simp at hlen
    subst hre
    simp [peelBatches]
  | succ fuel ih =>
    intro rem c hlen hnodup t
    by_cases hre : rem = []
    · subst hre
      rw [peelBatches_nil]
      simp
    · rw [peelBatches_cons fuel rem c hre, List.flatten_cons, List.count_append]
      by_cases h0 : (ready_filter c rem).isEmpty = true
      · have hrem' : rem.filter (fun u => !(rem.map Task.task_id).contains u.task_id) = [] := by
          rw [List.filter_eq_nil_iff]
          intro u hu
          simp [List.mem_map]
          exact ⟨u, hu, rfl⟩
        simp only [h0, if_true]
        rw [hrem', peelBatches_nil]
        simp
      · have h0' : (ready_filter c rem).isEmpty = false := by
          rw [Bool.eq_false_iff]
          exact h0
        simp only [h0', Bool.false_eq_true, if_false]
        have hRne : ready_filter c rem ≠ [] := List.isEmpty_eq_false.mp h0'
        obtain ⟨r, hrR⟩ := List.exists_mem_of_ne_nil _ hRne
        have hrrem : r ∈ rem := (List.mem_filter.mp hrR).1
        have hlt : (rem.filter (fun u =>
            !((ready_filter c rem).map Task.task_id).contains u.task_id)).length < rem.length := by
          rw [List.length_filter_lt_length_iff_exists]
          refine ⟨r, hrrem, ?_⟩
          simp [List.mem_map]
          exact ⟨r, hrR, rfl⟩
        have hsub : (rem.filter (fun u =>
            !((ready_filter c rem).map Task.task_id).contains u.task_id)).Sublist rem :=
          List.filter_sublist rem
        have hnodup' : ((rem.filter (fun u =>
            !((ready_filter c rem).map Task.task_id).contains u.task_id)).map
              Task.task_id).Nodup :=
          (hsub.map Task.task_id).nodup hnodup
        rw [ih _ _ (by omega) hnodup' t]
        unfold ready_filter
        rw [count_filter_eq, count_filter_eq]
        by_cases hm : t ∈ rem
        · by_cases hp : t.depends_on.all (fun d => c.contains d) = true
          · have htR : t ∈ ready_filter c rem := List.mem_filter.mpr ⟨hm, hp⟩
            have hq : (!((ready_filter c rem).map Task.task_id).contains t.task_id) = false := by
              simp [List.mem_map]
              exact ⟨t, htR, rfl⟩
            unfold ready_filter at hq
            rw [if_pos hp, hq]
            simp
          · have hq : (!((ready_filter c rem).map Task.task_id).contains t.task_id) = true := by
              simp only [Bool.not_eq_true', Bool.eq_false_iff]
              intro hc
              have : t.task_id ∈ (ready_filter c rem).map Task.task_id := by
                simpa using hc
              obtain ⟨u, huR, hid⟩ := List.mem_map.mp this
              have hurem : u ∈ rem := (List.mem_filter.mp huR).1
              have : u = t := List.inj_on_of_nodup_map hnodup hurem hm hid
              exact hp (this ▸ (List.mem_filter.mp huR).2)
            unfold ready_filter at hq
            rw [if_neg hp, hq]
            simp
        · have hz : rem.count t = 0 := List.count_eq_zero.mpr hm
          rw [hz]
          split <;> split <;> simp [hz]

/-- With pairwise-distinct task ids, the ids across all produced batches are
pairwise distinct: no task id appears in two batches. -/
theorem peel_flatten_id_nodup :
    ∀ (fuel : ℕ) (rem : List Task) (completed : List String),
      rem.length ≤ fuel → (rem.map Task.task_id).Nodup →
      (((peelBatches fuel rem completed).flatten).map Task.task_id).Nodup := by
  intro fuel
  induction fuel with
  | zero =>
    intro rem c hlen _
    have hre : rem = [] := by
      cases rem with
      | nil => rfl
      | cons a l => simp at hlen
    subst hre
    simp [peelBatches]
  | succ fuel ih =>
    intro rem c hlen hnodup
    by_cases hre : rem = []
    · subst hre
      rw [peelBatches_nil]
      simp
    · rw [peelBatches_cons fuel rem c hre, List.flatten_cons, List.map_append]
      by_cases h0 : (ready_filter c rem).isEmpty = true
      · have hrem' : rem.filter (fun u => !(rem.map Task.task_id).contains u.task_id) = [] := by
          rw [List.filter_eq_nil_iff]
          intro u hu
          simp [List.mem_map]
          exact ⟨u, hu, rfl⟩
        simp only [h0, if_true]
        rw [hrem', peelBatches_nil]
        simpa using hnodup
      · have h0' : (ready_filter c rem).isEmpty = false := by
          rw [Bool.eq_false_iff]
          exact h0
        simp only [h0', Bool.false_eq_true, if_false]
        have hRne : ready_filter c rem ≠ [] := List.isEmpty_eq_false.mp h0'
        obtain ⟨r, hrR⟩ := List.exists_mem_of_ne_nil _ hRne
        have hlt : (rem.filter (fun u =>
            !((ready_filter c rem).map Task.task_id).contains u.task_id)).length < rem.length := by
          rw [List.length_filter_lt_length_iff_exists]
          refine ⟨r, (List.mem_filter.mp hrR).1, ?_⟩
          simp [List.mem_map]
          exact ⟨r, hrR, rfl⟩
        have hsub : (rem.filter (fun u =>
            !((ready_filter c rem).map Task.task_id).contains u.task_id)).Sublist rem :=
          List.filter_sublist rem
        have hnodup' := (hsub.map Task.task_id).nodup hnodup
        rw [List.nodup_append]
        refine ⟨((List.filter_sublist rem).map Task.task_id).nodup hnodup,
          ih _ _ (by omega) hnodup', ?_⟩
        intro x hx hx'
        obtain ⟨u, huR, hid⟩ := List.mem_map.mp hx
        obtain ⟨v, hvF, hid'⟩ := List.mem_map.mp hx'
        have hvrem' := peel_flatten_subset fuel _ _ v hvF
        have hvq := (List.mem_filter.mp hvrem').2
        rw [Bool.not_eq_true', Bool.eq_false_iff] at hvq
        apply hvq
        have : v.task_id ∈ (ready_filter c rem).map Task.task_id := by
          rw [hid', ← hid]
          exact List.mem_map_of_mem Task.task_id huR
        simpa using this

/-- Peeling yields at most one batch per remaining task. -/
theorem peel_length_le :
    ∀ (fuel : ℕ) (rem : List Task) (completed : List String),
      (peelBatches fuel rem completed).length ≤ rem.length := by
  intro fuel
  induction fuel with
  | zero =>
    intro rem c
    simp [peelBatches]
  | succ fuel ih =>
    intro rem c
    by_cases hre : rem = []
    · subst hre
      rw [peelBatches_nil]
      simp
    · rw [peelBatches_cons fuel rem c hre, List.length_cons]
      by_cases h0 : (ready_filter c rem).isEmpty = true
      · have hrem' : rem.filter (fun u => !(rem.map Task.task_id).contains u.task_id) = [] := by
          rw [List.filter_eq_nil_iff]
          intro u hu
          simp [List.mem_map]
          exact ⟨u, hu, rfl⟩
        simp only [h0, if_true]
        rw [hrem', peelBatches_nil]
        have : 0 < rem.length := List.length_pos.mpr hre
        simpa using this
      · have h0' : (ready_filter c rem).isEmpty = false := by
          rw [Bool.eq_false_iff]
          exact h0
        simp only [h0', Bool.false_eq_true, if_false]
        have hRne : ready_filter c rem ≠ [] := List.isEmpty_eq_false.mp h0'
        obtain ⟨r, hrR⟩ := List.exists_mem_of_ne_nil _ hRne
        have hlt : (rem.filter (fun u =>
            !((ready_filter c rem).map Task.task_id).contains u.task_id)).length < rem.length := by
          rw [List.length_filter_lt_length_iff_exists]
          refine ⟨r, (List.mem_filter.mp hrR).1, ?_⟩
          simp [List.mem_map]
          exact ⟨r, hrR, rfl⟩
        have := ih (rem.filter (fun u =>
          !((ready_filter c rem).map Task.task_id).contains u.task_id))
          (c ++ (ready_filter c rem).map Task.task_id)
        omega


/-- Batch `k` of the peeling is exactly the set of still-unplaced tasks
whose dependencies are all placed — unless that set is empty, in which case
batch `k` is the whole remainder and is the last batch (the cycle
fallback of `executor.py` lines 216-220). -/
theorem peel_get_spec :
    ∀ (fuel : ℕ) (rem : List Task) (completed : List String),
      rem.length ≤ fuel →
      (rem.map Task.task_id).Nodup →
      (∀ t ∈ rem, completed.contains t.task_id = false) →
      ∀ (k : ℕ) (b : List Task),
        (peelBatches fuel rem completed)[k]? = some b →
        (ready_filter (placed_ids completed (peelBatches fuel rem completed) k)
            (rest_tasks rem (placed_ids completed (peelBatches fuel rem completed) k)) ≠ [] →
          b = ready_filter (placed_ids completed (peelBatches fuel rem completed) k)
            (rest_tasks rem (placed_ids completed (peelBatches fuel rem completed) k))) ∧
        (ready_filter (placed_ids completed (peelBatches fuel rem completed) k)
            (rest_tasks rem (placed_ids completed (peelBatches fuel rem completed) k)) = [] →
          b = rest_tasks rem (placed_ids completed (peelBatches fuel rem completed) k) ∧
          k + 1 = (peelBatches fuel rem completed).length) := by
  intro fuel
  induction fuel with
  | zero =>
    intro rem c hlen hnodup hdisj k b hget
    have hre : rem = [] := by
      cases rem with
      | nil => rfl
      | cons a l => simp at hlen
    subst hre
    simp [peelBatches] at hget
  | succ fuel ih =>
    intro rem c hlen hnodup hdisj k b hget
    by_cases hre : rem = []
    · subst hre
      rw [peelBatches_nil] at hget
      simp at hget
    · have hrest0 : rest_tasks rem c = rem := by
        unfold rest_tasks
        rw [List.filter_eq_self]
        intro t ht
        simpa using hdisj t ht
      by_cases h0 : (ready_filter c rem).isEmpty = true
      · -- cycle fallback: the whole remainder forms the single final batch
        have hready0 : ready_filter c rem = [] := List.isEmpty_iff.mp h0
        have hrem' : rem.filter (fun u => !(rem.map Task.task_id).contains u.task_id) = [] := by
          rw [List.filter_eq_nil_iff]
          intro u hu
          simp [List.mem_map]
          exact ⟨u, hu, rfl⟩
        have hB : peelBatches (fuel + 1) rem c = [rem] := by
          rw [peelBatches_cons fuel rem c hre]
          simp only [h0, if_true]
          rw [hrem', peelBatches_nil]
        rw [hB] at hget ⊢
        cases k with
        | zero =>
          simp only [List.getElem?_cons_zero, Option.some.injEq] at hget
          subst hget
          have hplaced : placed_ids c [rem] 0 = c := by simp [placed_ids]
          rw [hplaced, hrest0]
          constructor
          · intro hne
            exact absurd hready0 hne
          · intro _
            exact ⟨rfl, rfl⟩
        | succ k =>
          rw [List.getElem?_cons_succ] at hget
          simp at hget
      · -- normal step: the ready set is the next batch
        have h0' : (ready_filter c rem).isEmpty = false := Bool.eq_false_iff.mpr h0
        have hRne : ready_filter c rem ≠ [] := List.isEmpty_eq_false.mp h0'
        have hB : peelBatches (fuel + 1) rem c =
            ready_filter c rem ::
              peelBatches fuel
                (rem.filter (fun u =>
                  !((ready_filter c rem).map Task.task_id).contains u.task_id))
                (c ++ (ready_filter c rem).map Task.task_id) := by
          rw [peelBatches_cons fuel rem c hre]
          simp only [h0', Bool.false_eq_true, if_false]
        rw [hB] at hget ⊢
        cases k with
        | zero =>
          simp only [List.getElem?_cons_zero, Option.some.injEq] at hget
          have hplaced : placed_ids c (ready_filter c rem ::
              peelBatches fuel
                (rem.filter (fun u =>
                  !((ready_filter c rem).map Task.task_id).contains u.task_id))
                (c ++ (ready_filter c rem).map Task.task_id)) 0 = c := by
            simp [placed_ids]
          rw [hplaced, hrest0]
          constructor
          · intro _
            exact hget.symm
          · intro hnil
            exact absurd hnil hRne
        | succ k =>
          rw [List.getElem?_cons_succ] at hget
          obtain ⟨r, hrR⟩ := List.exists_mem_of_ne_nil _ hRne
          have hlt : (rem.filter (fun u =>
              !((ready_filter c rem).map Task.task_id).contains u.task_id)).length <
              rem.length := by
            rw [List.length_filter_lt_length_iff_exists]
            refine ⟨r, (List.mem_filter.mp hrR).1, ?_⟩
            simp [List.mem_map]
            exact ⟨r, hrR, rfl⟩
          have hsub : (rem.filter (fun u =>
              !((ready_filter c rem).map Task.task_id).contains u.task_id)).Sublist rem :=
            List.filter_sublist rem
          have hnodup' := (hsub.map Task.task_id).nodup hnodup
          have hdisj' : ∀ t ∈ rem.filter (fun u =>
              !((ready_filter c rem).map Task.task_id).contains u.task_id),
              (c ++ (ready_filter c rem).map Task.task_id).contains t.task_id = false := by
            intro t ht
            have h1 : t.task_id ∉ c := by simpa using hdisj t (List.mem_filter.mp ht).1
            have h2 : t.task_id ∉ (ready_filter c rem).map Task.task_id := by
              simpa using (List.mem_filter.mp ht).2
            simp [h1, h2]
          have IH := ih (rem.filter (fun u =>
              !((ready_filter c rem).map Task.task_id).contains u.task_id))
            (c ++ (ready_filter c rem).map Task.task_id) (by omega) hnodup' hdisj' k b hget
          have hplaced : placed_ids c (ready_filter c rem ::
              peelBatches fuel
                (rem.filter (fun u =>
                  !((ready_filter c rem).map Task.task_id).contains u.task_id))
                (c ++ (ready_filter c rem).map Task.task_id)) (k + 1) =
              placed_ids (c ++ (ready_filter c rem).map Task.task_id)
                (peelBatches fuel
                  (rem.filter (fun u =>
                    !((ready_filter c rem).map Task.task_id).contains u.task_id))
                  (c ++ (ready_filter c rem).map Task.task_id)) k := by
            unfold placed_ids
            rw [List.take_succ_cons, List.flatten_cons, List.map_append, List.append_assoc]
          rw [hplaced]
          have hrest : rest_tasks (rem.filter (fun u =>
              !((ready_filter c rem).map Task.task_id).contains u.task_id))
                (placed_ids (c ++ (ready_filter c rem).map Task.task_id)
                  (peelBatches fuel
                    (rem.filter (fun u =>
                      !((ready_filter c rem).map Task.task_id).contains u.task_id))
                    (c ++ (ready_filter c rem).map Task.task_id)) k) =
              rest_tasks rem
                (placed_ids (c ++ (ready_filter c rem).map Task.task_id)
                  (peelBatches fuel
                    (rem.filter (fun u =>
                      !((ready_filter c rem).map Task.task_id).contains u.task_id))
                    (c ++ (ready_filter c rem).map Task.task_id)) k) := by
            unfold rest_tasks
            rw [List.filter_filter]
            apply List.filter_congr
            intro a _
            by_cases hq : ((ready_filter c rem).map Task.task_id).contains a.task_id = true
            · have hP : (placed_ids (c ++ (ready_filter c rem).map Task.task_id)
                  (peelBatches fuel
                    (rem.filter (fun u =>
                      !((ready_filter c rem).map Task.task_id).contains u.task_id))
                    (c ++ (ready_filter c rem).map Task.task_id)) k).contains a.task_id
                  = true := by
                unfold placed_ids
                have hmem : a.task_id ∈ (ready_filter c rem).map Task.task_id := by
                  simpa using hq
                simp [hmem]
              rw [hP, hq]
              rfl
            · have hq' : ((ready_filter c rem).map Task.task_id).contains a.task_id = false :=
                Bool.eq_false_iff.mpr hq
              rw [hq']
              simp
          rw [← hrest]
          refine ⟨fun hne => IH.1 hne, fun hnil => ⟨(IH.2 hnil).1, ?_⟩⟩
          have := (IH.2 hnil).2
          rw [List.length_cons]
          omega


/-- A `find?` hitting a unique satisfying element returns it. -/
theorem find?_unique {p : Task → Bool} {l : List Task} {t : Task}
    (hmem : t ∈ l) (hp : p t = true) (huniq : ∀ u ∈ l, p u = true → u = t) :
    l.find? p = some t := by
  induction l with
  | nil => simp at hmem
  | cons a as ih =>
    by_cases hpa : p a = true
    · rw [List.find?_cons_of_pos _ hpa]
      rw [huniq a (List.mem_cons_self a as) hpa]
    · rw [List.find?_cons_of_neg _ hpa]
      have hta : t ≠ a := fun h => hpa (h ▸ hp)
      have hmem' : t ∈ as := by
        rcases List.mem_cons.mp hmem with h | h
        · exact absurd h hta
        · exact h
      exact ih hmem' (fun u hu hpu => huniq u (List.mem_cons_of_mem a hu) hpu)

/-- `tasks_by_id` returns a task of the list carrying the requested id. -/
theorem tasks_by_id_spec {tasks : List Task} {tid : String} {t : Task}
    (h : tasks_by_id tasks tid = some t) : t.task_id = tid ∧ t ∈ tasks := by
  unfold tasks_by_id at h
  constructor
  · have := List.find?_some h
    simpa using this
  · have := List.mem_of_find?_eq_some h
    simpa using this

/-- With pairwise-distinct ids, looking a task's own id up returns it. -/
theorem tasks_by_id_self {tasks : List Task} (hnodup : (tasks.map Task.task_id).Nodup)
    {t : Task} (ht : t ∈ tasks) : tasks_by_id tasks t.task_id = some t := by
  unfold tasks_by_id
  apply find?_unique
  · simpa using ht
  · simp
  · intro u hu hpu
    have hu' : u ∈ tasks := by simpa using hu
    have : u.task_id = t.task_id := by simpa using hpu
    exact List.inj_on_of_nodup_map hnodup hu' ht this

/-- With pairwise-distinct ids the deduplication step is the identity. -/
theorem dedupById_eq_self {tasks : List Task} (hnodup : (tasks.map Task.task_id).Nodup) :
    dedupById tasks = tasks := by
  unfold dedupById
  rw [hnodup.dedup, List.filterMap_map]
  have : ∀ t ∈ tasks, (tasks_by_id tasks ∘ Task.task_id) t = some t := by
    intro t ht
    exact tasks_by_id_self hnodup ht
  rw [List.filterMap_congr this, List.filterMap_some]

/-- Whatever the input, the deduplicated remainder has distinct ids. -/
theorem dedupById_id_nodup (tasks : List Task) :
    ((dedupById tasks).map Task.task_id).Nodup := by
  unfold dedupById
  have hgen : ∀ l : List String,
      (((l.filterMap (tasks_by_id tasks)).map Task.task_id)).Sublist l := by
    intro l
    induction l with
    | nil => simp
    | cons x xs ih =>
      rw [List.filterMap_cons]
      cases h : tasks_by_id tasks x with
      | none => exact ih.cons x
      | some a =>
        rw [List.map_cons, (tasks_by_id_spec h).1]
        exact ih.cons₂ x
  exact (hgen _).nodup (List.nodup_dedup _)

/-- Under distinct ids the batch builder peels the task list itself. -/
theorem build_execution_batches_eq {tasks : List Task}
    (hnodup : (tasks.map Task.task_id).Nodup) :
    build_execution_batches tasks = peelBatches tasks.length tasks [] := by
  unfold build_execution_batches
  rw [dedupById_eq_self hnodup]

/-- C4 counterexample: two distinct tasks sharing the id "a" — the batch
builder's id-keyed dictionary keeps only the later one, so the earlier task
appears in no batch at all, refuting "every task appears in exactly one
batch" for arbitrary finite task lists. -/
theorem C4_counterexample :
    build_execution_batches [exTaskA, exTaskDup] = [[exTaskDup]] ∧
    exTaskA ≠ exTaskDup ∧
    exTaskA ∉ (build_execution_batches [exTaskA, exTaskDup]).flatten := by
  refine ⟨by decide, by decide, by decide⟩

/-- C4 amended: for every finite task list with pairwise-distinct task ids,
the batch builder partitions the tasks into batches by repeated topological
peeling — every task appears in exactly one batch, each batch drawn from the
input; batch `k` is exactly the set of remaining tasks whose `dependsOn` is
contained in the ids placed in earlier batches, and when no task is ready
while tasks remain, all remaining tasks form one final batch; the builder
always terminates, with at most one batch per task. -/
theorem C4_batch_builder_amended :
    ∀ (tasks : List Task), (tasks.map Task.task_id).Nodup →
      (∀ t ∈ tasks, ((build_execution_batches tasks).flatten).count t = 1) ∧
      (∀ t ∈ (build_execution_batches tasks).flatten, t ∈ tasks) ∧
      (build_execution_batches tasks).length ≤ tasks.length ∧
      (∀ (k : ℕ) (b : List Task), (build_execution_batches tasks)[k]? = some b →
        (ready_filter (placed_ids [] (build_execution_batches tasks) k)
            (rest_tasks tasks (placed_ids [] (build_execution_batches tasks) k)) ≠ [] →
          b = ready_filter (placed_ids [] (build_execution_batches tasks) k)
            (rest_tasks tasks (placed_ids [] (build_execution_batches tasks) k))) ∧
        (ready_filter (placed_ids [] (build_execution_batches tasks) k)
            (rest_tasks tasks (placed_ids [] (build_execution_batches tasks) k)) = [] →
          b = rest_tasks tasks (placed_ids [] (build_execution_batches tasks) k) ∧
          k + 1 = (build_execution_batches tasks).length)) := by
  intro tasks hnodup
  have hB := build_execution_batches_eq hnodup
  have hdisj : ∀ t ∈ tasks, ([] : List String).contains t.task_id = false := by
    intro t _
    rfl
  rw [hB]
  refine ⟨?_, ?_, ?_, ?_⟩
  · intro t ht
    rw [peel_flatten_count tasks.length tasks [] le_rfl hnodup t]
    exact List.count_eq_one_of_mem (hnodup.of_map) ht
  · intro t ht
    exact peel_flatten_subset tasks.length tasks [] t ht
  · exact peel_length_le tasks.length tasks []
  · intro k b hget
    exact peel_get_spec tasks.length tasks [] le_rfl hnodup hdisj k b hget

/-- Witness for C4 at the two-task plan with one dependency edge: task `a`
appears exactly once across the batches, and there are at most two
batches. -/
theorem C4_batch_builder_amended_witness :
    ((build_execution_batches [exTaskA, exTaskB]).flatten).count exTaskA = 1 ∧
    (build_execution_batches [exTaskA, exTaskB]).length ≤ 2 := by
  have h := C4_batch_builder_amended [exTaskA, exTaskB] (by decide)
  exact ⟨h.1 exTaskA (by decide), h.2.2.1⟩


/-! ### Ordering and counting of executor events -/

/-- The accumulator's passthrough is drawn from its input. -/
theorem consume_fst_subset (a : ScheduledTaskResultAccumulator) (evs : List Event) :
    ∀ e ∈ (ScheduledTaskResultAccumulator.consume a evs).1, e ∈ evs := by
  intro e he
  unfold ScheduledTaskResultAccumulator.consume at he
  by_cases hen : a.enabled = true
  · rw [if_neg (fun hc => hc hen)] at he
    rw [consumeLoop_eq] at he
    exact (List.mem_filter.mp he).1
  · rw [if_pos (fun hc => hen hc)] at he
    exact he

/-- The finalize component carries the task's id. -/
theorem finalize_tid (t : Task) (buffer : List String) (e : Event)
    (h : ScheduledTaskResultAccumulator.finalize ⟨t, buffer⟩ = some e) :
    e.task_id = some t.task_id := by
  unfold ScheduledTaskResultAccumulator.finalize at h
  by_cases hen : (ScheduledTaskResultAccumulator.enabled ⟨t, buffer⟩) = true
  · rw [if_neg (fun hc => hc hen)] at h
    have := (Option.some.injEq _ _).mp h
    rw [← this]
    rfl
  · rw [if_pos (fun hc => hen hc)] at h
    simp at h

/-- Every event a run emits carries the run's task id or none. -/
theorem runConsumeLoop_tid (t : Task) :
    ∀ (stream : List RemoteItem) (buffer : List String),
      ∀ e ∈ runConsumeLoop t buffer stream,
        e.task_id = some t.task_id ∨ e.task_id = none := by
  intro stream
  induction stream with
  | nil =>
    intro buffer e he
    simp only [runConsumeLoop] at he
    cases hf : ScheduledTaskResultAccumulator.finalize ⟨t, buffer⟩ with
    | none => rw [hf] at he; simp at he
    | some e' =>
      rw [hf] at he
      simp only [Option.toList_some, List.mem_singleton] at he
      subst he
      exact Or.inl (finalize_tid t buffer e hf)
  | cons item rest ih =>
    intro buffer e he
    cases item with
    | submitted_poll =>
      simp only [runConsumeLoop, List.mem_cons] at he
      rcases he with h | h
      · subst h
        exact Or.inl rfl
      · exact ih buffer e h
    | status_update routed done =>
      simp only [runConsumeLoop] at he
      rw [List.mem_append] at he
      rcases he with h | h
      · have hin := consume_fst_subset ⟨t, buffer⟩ (routed.map (routeStamp t)) e h
        obtain ⟨p, _, hp⟩ := List.mem_map.mp hin
        subst hp
        exact Or.inl rfl
      · cases done with
        | true => simp at h
        | false => exact ih _ e h
    | artifact =>
      simp only [runConsumeLoop] at he
      exact ih buffer e he

/-- Every event `_execute_task` emits carries the task's id or none. -/
theorem execute_task_tid (pc : String) (t : Task) (o : TaskOutcome) :
    ∀ e ∈ (execute_task pc t o).1, e.task_id = some t.task_id ∨ e.task_id = none := by
  intro e he
  unfold execute_task at he
  have hpre : ∀ e ∈ (if t.is_scheduled = true then
      [mkScheduleTaskController t] ++
        (if t.handoff_from_super_agent = true then [mkSubagentComponent pc t "end"] else []) ++
        [mkDone t.conversation_id]
    else []), e.task_id = some t.task_id ∨ e.task_id = none := by
    intro e he
    by_cases hs : t.is_scheduled = true
    · rw [if_pos hs] at he
      rcases List.mem_append.mp he with h | h
      · rcases List.mem_append.mp h with h' | h'
        · rw [List.mem_singleton.mp h']
          exact Or.inl rfl
        · by_cases hh : t.handoff_from_super_agent = true
          · rw [if_pos hh] at h'
            rw [List.mem_singleton.mp h']
            exact Or.inl rfl
          · rw [if_neg hh] at h'
            simp at h'
      · rw [List.mem_singleton.mp h]
        exact Or.inr rfl
    · rw [if_neg hs] at he
      simp at he
  cases o with
  | ok runs =>
    simp only at he
    rcases List.mem_append.mp he with h | h
    · rcases List.mem_append.mp h with h' | h'
      · exact hpre e (by simpa using h')
      · by_cases hs : t.is_scheduled = true
        · rw [if_pos hs] at h'
          obtain ⟨l, hl, hel⟩ := List.mem_flatten.mp h'
          obtain ⟨s, _, hs'⟩ := List.mem_map.mp hl
          subst hs'
          exact runConsumeLoop_tid t s [] e hel
        · rw [if_neg hs] at h'
          exact runConsumeLoop_tid t _ [] e h'
    · rw [List.mem_singleton.mp h]
      exact Or.inl rfl
  | err runs partialRun =>
    simp only at he
    rcases List.mem_append.mp he with h | h
    · rcases List.mem_append.mp h with h' | h'
      · exact hpre e (by simpa using h')
      · by_cases hs : t.is_scheduled = true
        · rw [if_pos hs] at h'
          obtain ⟨l, hl, hel⟩ := List.mem_flatten.mp h'
          obtain ⟨s, _, hs'⟩ := List.mem_map.mp hl
          subst hs'
          exact runConsumeLoop_tid t s [] e hel
        · rw [if_neg hs] at h'
          simp at h'
    · exact runConsumeLoop_tid t partialRun [] e h

/-- Every event of a single in-plan task execution carries that task's id or
none. -/
theorem execute_single_task_in_plan_tid (pc : String) (t : Task) (o : TaskOutcome) :
    ∀ e ∈ execute_single_task_in_plan pc t o,
      e.task_id = some t.task_id ∨ e.task_id = none := by
  intro e he
  rcases hexec : execute_task pc t o with ⟨events, raised⟩
  have htid1 : ∀ e' ∈ events, e'.task_id = some t.task_id ∨ e'.task_id = none := by
    intro e' he'
    apply execute_task_tid pc t o
    rw [hexec]
    exact he'
  unfold execute_single_task_in_plan at he
  rw [hexec] at he
  rcases List.mem_append.mp he with h | h
  · rcases List.mem_append.mp h with h' | h'
    · by_cases hh : t.handoff_from_super_agent = true
      · rw [if_pos hh] at h'
        rcases List.mem_cons.mp h' with h2 | h2
        · subst h2
          exact Or.inl rfl
        · rw [List.mem_singleton.mp h2]
          exact Or.inr rfl
      · rw [if_neg hh] at h'
        simp at h'
    · rcases List.mem_append.mp h' with h2 | h2
      · exact htid1 e h2
      · cases raised with
        | true =>
          simp only [if_true] at h2
          rw [List.mem_singleton.mp h2]
          exact Or.inl rfl
        | false => simp at h2
  · by_cases hc : (t.handoff_from_super_agent && !t.is_scheduled) = true
    · rw [if_pos hc] at h
      rw [List.mem_singleton.mp h]
      exact Or.inl rfl
    · rw [if_neg hc] at h
      simp at h

/-- Every event of a batch execution belongs to one of the batch's tasks or
carries no task id. -/
theorem execute_batch_tid (pc : String) (outcomes : String → TaskOutcome)
    (toExecute : List Task) :
    ∀ e ∈ execute_batch pc outcomes toExecute,
      e.task_id = none ∨ ∃ t ∈ toExecute, e.task_id = some t.task_id := by
  intro e he
  unfold execute_batch at he
  rcases List.mem_append.mp he with h | h
  · obtain ⟨l, hl, hel⟩ := List.mem_flatten.mp h
    obtain ⟨t, ht, hteq⟩ := List.mem_map.mp hl
    subst hteq
    rcases execute_single_task_in_plan_tid pc t (outcomes t.task_id) e hel with h' | h'
    · exact Or.inr ⟨t, ht, h'⟩
    · exact Or.inl h'
  · obtain ⟨t, ht, hteq⟩ := List.mem_map.mp h
    subst hteq
    exact Or.inr ⟨t, ht, rfl⟩

/-- Every event of the dependency loop belongs to a task of some batch or
carries no task id. -/
theorem dep_loop_tid (pc : String) (outcomes : String → TaskOutcome) :
    ∀ (B : List (List Task)) (completed : List String),
      ∀ e ∈ execute_plan_with_dependencies_loop pc outcomes B completed,
        e.task_id = none ∨
          ∃ tid, e.task_id = some tid ∧ tid ∈ (B.flatten).map Task.task_id := by
  intro B
  induction B with
  | nil =>
    intro completed e he
    simp [execute_plan_with_dependencies_loop] at he
  | cons b bs ih =>
    intro completed e he
    simp only [execute_plan_with_dependencies_loop] at he
    rcases List.mem_append.mp he with h | h
    · rcases execute_batch_tid pc outcomes _ e h with h' | ⟨t, ht, h'⟩
      · exact Or.inl h'
      · refine Or.inr ⟨t.task_id, h', ?_⟩
        rw [List.flatten_cons, List.map_append, List.mem_append]
        left
        exact List.mem_map_of_mem Task.task_id (List.mem_filter.mp ht).1
    · rcases ih _ e h with h' | ⟨tid, he', htid⟩
      · exact Or.inl h'
      · refine Or.inr ⟨tid, he', ?_⟩
        rw [List.flatten_cons, List.map_append, List.mem_append]
        right
        exact htid


/-- Across consecutive batches of the dependency loop, every
`task_completed` event of a batch-`N` task is emitted strictly before every
`task_started` event of a batch-`N+1` task, provided no task id appears in
two batches. -/
theorem dep_loop_batch_order (pc : String) (outcomes : String → TaskOutcome) :
    ∀ (B : List (List Task)) (completed : List String),
      ((B.flatten).map Task.task_id).Nodup →
      ∀ (N : ℕ) (bN bN1 : List Task) (i j : ℕ) (e1 e2 : Event) (tid tid' : String),
        B[N]? = some bN → B[N + 1]? = some bN1 →
        (execute_plan_with_dependencies_loop pc outcomes B completed)[i]? = some e1 →
        e1.event = EventKind.task_completed → e1.task_id = some tid →
        tid ∈ bN.map Task.task_id →
        (execute_plan_with_dependencies_loop pc outcomes B completed)[j]? = some e2 →
        e2.event = EventKind.task_started → e2.task_id = some tid' →
        tid' ∈ bN1.map Task.task_id →
        i < j := by
  intro B
  induction B with
  | nil =>
    intro completed _ N bN bN1 i j e1 e2 tid tid' hN _ _ _ _ _ _ _ _ _
    simp at hN
  | cons b bs ih =>
    intro completed hnodup N bN bN1 i j e1 e2 tid tid' hN hN1 hi he1k he1t htidN hj he2k he2t htidN1
    have hnodup' : (((b :: bs).flatten).map Task.task_id).Nodup := hnodup
    rw [List.flatten_cons, List.map_append] at hnodup'
    rcases List.nodup_append.mp hnodup' with ⟨_, hnodups, hdisjoint⟩
    have hout : execute_plan_with_dependencies_loop pc outcomes (b :: bs) completed =
        execute_batch pc outcomes (ready_filter completed b) ++
          execute_plan_with_dependencies_loop pc outcomes bs
            (completed ++ (ready_filter completed b).map Task.task_id) := rfl
    rw [hout] at hi hj
    have hseg_tid : ∀ e ∈ execute_batch pc outcomes (ready_filter completed b),
        e.task_id = none ∨ ∃ t ∈ b, e.task_id = some t.task_id := by
      intro e he
      rcases execute_batch_tid pc outcomes _ e he with h | ⟨t, ht, h⟩
      · exact Or.inl h
      · exact Or.inr ⟨t, (List.mem_filter.mp ht).1, h⟩
    cases N with
    | zero =>
      simp only [List.getElem?_cons_zero, Option.some.injEq] at hN
      subst hN
      rw [List.getElem?_cons_succ] at hN1
      have hbN1 : bN1 ∈ bs := List.getElem?_mem hN1
      have htid'_flat : tid' ∈ (bs.flatten).map Task.task_id := by
        obtain ⟨t, ht, hteq⟩ := List.mem_map.mp htidN1
        subst hteq
        exact List.mem_map_of_mem Task.task_id (List.mem_flatten.mpr ⟨bN1, hbN1, ht⟩)
      have hi_lt : i < (execute_batch pc outcomes (ready_filter completed b)).length := by
        by_contra hge
        rw [List.getElem?_append, if_neg hge] at hi
        have he1mem := List.getElem?_mem hi
        rcases dep_loop_tid pc outcomes bs _ e1 he1mem with h | ⟨tid2, he1t2, htid2⟩
        · rw [h] at he1t
          simp at he1t
        · rw [he1t] at he1t2
          have : tid = tid2 := by
            simpa using he1t2
          subst this
          exact hdisjoint htidN htid2
      have hj_ge : ¬ j < (execute_batch pc outcomes (ready_filter completed b)).length := by
        intro hlt
        rw [List.getElem?_append, if_pos hlt] at hj
        have he2mem := List.getElem?_mem hj
        rcases hseg_tid e2 he2mem with h | ⟨t, ht, h⟩
        · rw [h] at he2t
          simp at he2t
        · rw [he2t] at h
          have : tid' = t.task_id := by
            have := h.symm
            simpa using this.symm
          subst this
          exact hdisjoint (List.mem_map_of_mem Task.task_id ht) htid'_flat
      omega
    | succ k =>
      rw [List.getElem?_cons_succ] at hN hN1
      have hbN : bN ∈ bs := List.getElem?_mem hN
      have htid_flat : tid ∈ (bs.flatten).map Task.task_id := by
        obtain ⟨t, ht, hteq⟩ := List.mem_map.mp htidN
        subst hteq
        exact List.mem_map_of_mem Task.task_id (List.mem_flatten.mpr ⟨bN, hbN, ht⟩)
      have hi_ge : ¬ i < (execute_batch pc outcomes (ready_filter completed b)).length := by
        intro hlt
        rw [List.getElem?_append, if_pos hlt] at hi
        have he1mem := List.getElem?_mem hi
        rcases hseg_tid e1 he1mem with h | ⟨t, ht, h⟩
        · rw [h] at he1t
          simp at he1t
        · rw [he1t] at h
          have : tid = t.task_id := by
            have := h.symm
            simpa using this.symm
          subst this
          exact hdisjoint (List.mem_map_of_mem Task.task_id ht) htid_flat
      have hbN1' : bN1 ∈ bs := List.getElem?_mem hN1
      have htid'_flat : tid' ∈ (bs.flatten).map Task.task_id := by
        obtain ⟨t, ht, hteq⟩ := List.mem_map.mp htidN1
        subst hteq
        exact List.mem_map_of_mem Task.task_id (List.mem_flatten.mpr ⟨bN1, hbN1', ht⟩)
      have hj_ge : ¬ j < (execute_batch pc outcomes (ready_filter completed b)).length := by
        intro hlt
        rw [List.getElem?_append, if_pos hlt] at hj
        have he2mem := List.getElem?_mem hj
        rcases hseg_tid e2 he2mem with h | ⟨t, ht, h⟩
        · rw [h] at he2t
          simp at he2t
        · rw [he2t] at h
          have : tid' = t.task_id := by
            have := h.symm
            simpa using this.symm
          subst this
          exact hdisjoint (List.mem_map_of_mem Task.task_id ht) htid'_flat
      rw [List.getElem?_append, if_neg hi_ge] at hi
      rw [List.getElem?_append, if_neg hj_ge] at hj
      have := ih (completed ++ (ready_filter completed b).map Task.task_id) hnodups
        k bN bN1 _ _ e1 e2 tid tid' hN hN1 hi he1k he1t htidN hj he2k he2t htidN1
      omega


/-- C2: in a plan executed with dependencies, every `task_completed` event
belonging to batch N is emitted before every `task_started` event belonging
to batch N+1 — a task of a later batch never starts before all tasks of the
previous batch have been reported terminal. -/
theorem C2_cross_batch_ordering :
    ∀ (plan_conversation_id : String) (outcomes : String → TaskOutcome) (tasks : List Task)
      (N : ℕ) (bN bN1 : List Task) (i j : ℕ) (e1 e2 : Event) (tid tid' : String),
      (build_execution_batches tasks)[N]? = some bN →
      (build_execution_batches tasks)[N + 1]? = some bN1 →
      (execute_plan_with_dependencies_loop plan_conversation_id outcomes
        (build_execution_batches tasks) [])[i]? = some e1 →
      e1.event = EventKind.task_completed → e1.task_id = some tid →
      tid ∈ bN.map Task.task_id →
      (execute_plan_with_dependencies_loop plan_conversation_id outcomes
        (build_execution_batches tasks) [])[j]? = some e2 →
      e2.event = EventKind.task_started → e2.task_id = some tid' →
      tid' ∈ bN1.map Task.task_id →
      i < j := by
  intro pc outcomes tasks N bN bN1 i j e1 e2 tid tid' hN hN1 hi he1k he1t htidN hj he2k he2t htidN1
  have hnodup : (((build_execution_batches tasks).flatten).map Task.task_id).Nodup := by
    unfold build_execution_batches
    exact peel_flatten_id_nodup _ _ [] le_rfl (dedupById_id_nodup tasks)
  exact dep_loop_batch_order pc outcomes (build_execution_batches tasks) [] hnodup
    N bN bN1 i j e1 e2 tid tid' hN hN1 hi he1k he1t htidN hj he2k he2t htidN1

/-- Witness for C2 at the two-task dependency plan: task `a`'s per-task
`task_completed` (emitted at position 1) precedes task `b`'s `task_started`
(emitted at position 3). -/
theorem C2_cross_batch_ordering_witness :
    (execute_plan_with_dependencies_loop "conv-plan" exOutcomes
      (build_execution_batches [exTaskA, exTaskB]) [])[(1 : ℕ)]? =
        some (mkTaskCompleted "conv-a" exTaskA) ∧
    (execute_plan_with_dependencies_loop "conv-plan" exOutcomes
      (build_execution_batches [exTaskA, exTaskB]) [])[(3 : ℕ)]? =
        some (mkTaskStarted exTaskB) ∧
    (1 : ℕ) < 3 := by
  refine ⟨by decide, by decide, ?_⟩
  exact C2_cross_batch_ordering "conv-plan" exOutcomes [exTaskA, exTaskB] 0 [exTaskA] [exTaskB]
    1 3 (mkTaskCompleted "conv-a" exTaskA) (mkTaskStarted exTaskB) "a" "b"
    (by decide) (by decide) (by decide) rfl rfl (by decide) (by decide) rfl rfl (by decide)


/-- Event counts are additive over concatenation. -/
theorem started_count_append (tid : String) (l1 l2 : List Event) :
    started_count tid (l1 ++ l2) = started_count tid l1 + started_count tid l2 := by
  simp [started_count, List.filter_append]

/-- Terminal counts are additive over concatenation. -/
theorem terminal_count_append (tid : String) (l1 l2 : List Event) :
    terminal_count tid (l1 ++ l2) = terminal_count tid l1 + terminal_count tid l2 := by
  simp [terminal_count, List.filter_append]

/-- A list without started events for `tid` counts zero. -/
theorem started_count_eq_zero {tid : String} {l : List Event}
    (h : ∀ e ∈ l, ¬(e.event = EventKind.task_started ∧ e.task_id = some tid)) :
    started_count tid l = 0 := by
  unfold started_count
  rw [List.length_eq_zero, List.filter_eq_nil_iff]
  intro e he
  simp only [Bool.and_eq_true, decide_eq_true_eq]
  intro hc
  exact h e he ⟨by simpa using hc.1, by simpa using hc.2⟩

/-- A list without terminal events for `tid` counts zero. -/
theorem terminal_count_eq_zero {tid : String} {l : List Event}
    (h : ∀ e ∈ l, ¬(isTerminalKind e.event = true ∧ e.task_id = some tid)) :
    terminal_count tid l = 0 := by
  unfold terminal_count
  rw [List.length_eq_zero, List.filter_eq_nil_iff]
  intro e he
  simp only [Bool.and_eq_true, decide_eq_true_eq]
  intro hc
  exact h e he ⟨hc.1, by simpa using hc.2⟩

/-- Router-translated events are neither started nor terminal events. -/
theorem routeStamp_kind (t : Task) (p : RoutedPayload) :
    (routeStamp t p).event ≠ EventKind.task_started ∧
    isTerminalKind (routeStamp t p).event = false := by
  cases p with
  | mk kind content =>
    cases kind <;>
      exact ⟨by simp [routeStamp], by simp [routeStamp, isTerminalKind]⟩

/-- The accumulator passthrough of routed events contains no started and no
terminal events. -/
theorem routed_pass_counts (t : Task) (routed : List RoutedPayload) (buffer : List String)
    (tid : String) :
    started_count tid
      (ScheduledTaskResultAccumulator.consume ⟨t, buffer⟩ (routed.map (routeStamp t))).1 = 0 ∧
    terminal_count tid
      (ScheduledTaskResultAccumulator.consume ⟨t, buffer⟩ (routed.map (routeStamp t))).1 = 0 := by
  constructor
  · apply started_count_eq_zero
    intro e he hc
    have hin := consume_fst_subset ⟨t, buffer⟩ (routed.map (routeStamp t)) e he
    obtain ⟨p, _, hp⟩ := List.mem_map.mp hin
    subst hp
    exact (routeStamp_kind t p).1 hc.1
  · apply terminal_count_eq_zero
    intro e he hc
    have hin := consume_fst_subset ⟨t, buffer⟩ (routed.map (routeStamp t)) e he
    obtain ⟨p, _, hp⟩ := List.mem_map.mp hin
    subst hp
    rw [(routeStamp_kind t p).2] at hc
    exact absurd hc.1 (by simp)

/-- A run emits no terminal events at all. -/
theorem runConsumeLoop_terminal_count (t : Task) :
    ∀ (stream : List RemoteItem) (buffer : List String) (tid : String),
      terminal_count tid (runConsumeLoop t buffer stream) = 0 := by
  intro stream
  induction stream with
  | nil =>
    intro buffer tid
    apply terminal_count_eq_zero
    intro e he hc
    simp only [runConsumeLoop] at he
    cases hf : ScheduledTaskResultAccumulator.finalize ⟨t, buffer⟩ with
    | none => rw [hf] at he; simp at he
    | some e' =>
      rw [hf] at he
      simp only [Option.toList_some, List.mem_singleton] at he
      subst he
      unfold ScheduledTaskResultAccumulator.finalize at hf
      by_cases hen : ScheduledTaskResultAccumulator.enabled ⟨t, buffer⟩ = true
      · rw [if_neg (fun hcc => hcc hen)] at hf
        have := (Option.some.injEq _ _).mp hf
        rw [← this] at hc
        exact absurd hc.1 (by simp [mkScheduleTaskResult, isTerminalKind])
      · rw [if_pos (fun hcc => hen hcc)] at hf
        simp at hf
  | cons item rest ih =>
    intro buffer tid
    cases item with
    | submitted_poll =>
      show terminal_count tid (mkTaskStarted t :: runConsumeLoop t buffer rest) = 0
      have : mkTaskStarted t :: runConsumeLoop t buffer rest =
          [mkTaskStarted t] ++ runConsumeLoop t buffer rest := rfl
      rw [this, terminal_count_append, ih buffer tid]
      have : terminal_count tid [mkTaskStarted t] = 0 := by
        apply terminal_count_eq_zero
        intro e he hc
        rw [List.mem_singleton.mp he] at hc
        exact absurd hc.1 (by simp [mkTaskStarted, isTerminalKind])
      omega
    | status_update routed done =>
      show terminal_count tid
        ((ScheduledTaskResultAccumulator.consume ⟨t, buffer⟩ (routed.map (routeStamp t))).1 ++
          (if done = true then []
           else runConsumeLoop t
             (ScheduledTaskResultAccumulator.consume ⟨t, buffer⟩
               (routed.map (routeStamp t))).2.buffer rest)) = 0
      rw [terminal_count_append, (routed_pass_counts t routed buffer tid).2]
      cases done with
      | true => simp [terminal_count]
      | false =>
        simp only [Bool.false_eq_true, if_false]
        rw [ih _ tid]
    | artifact =>
      show terminal_count tid (runConsumeLoop t buffer rest) = 0
      exact ih buffer tid

/-- A run emits exactly one `task_started` per processed `submitted` poll,
and all of them carry the run's task id. -/
theorem runConsumeLoop_started_count (t : Task) :
    ∀ (stream : List RemoteItem) (buffer : List String),
      started_count t.task_id (runConsumeLoop t buffer stream) = run_submit_count stream := by
  intro stream
  induction stream with
  | nil =>
    intro buffer
    show started_count t.task_id
      (ScheduledTaskResultAccumulator.finalize ⟨t, buffer⟩).toList = 0
    apply started_count_eq_zero
    intro e he hc
    cases hf : ScheduledTaskResultAccumulator.finalize ⟨t, buffer⟩ with
    | none => rw [hf] at he; simp at he
    | some e' =>
      rw [hf] at he
      simp only [Option.toList_some, List.mem_singleton] at he
      subst he
      unfold ScheduledTaskResultAccumulator.finalize at hf
      by_cases hen : ScheduledTaskResultAccumulator.enabled ⟨t, buffer⟩ = true
      · rw [if_neg (fun hcc => hcc hen)] at hf
        have := (Option.some.injEq _ _).mp hf
        rw [← this] at hc
        exact absurd hc.1 (by simp [mkScheduleTaskResult])
      · rw [if_pos (fun hcc => hen hcc)] at hf
        simp at hf
  | cons item rest ih =>
    intro buffer
    cases item with
    | submitted_poll =>
      show started_count t.task_id (mkTaskStarted t :: runConsumeLoop t buffer rest) =
        run_submit_count rest + 1
      have hsplit : mkTaskStarted t :: runConsumeLoop t buffer rest =
          [mkTaskStarted t] ++ runConsumeLoop t buffer rest := rfl
      rw [hsplit, started_count_append, ih buffer]
      have hone : started_count t.task_id [mkTaskStarted t] = 1 := by
        unfold started_count
        rw [List.filter_cons]
        have : (decide ((mkTaskStarted t).event = EventKind.task_started) &&
            decide ((mkTaskStarted t).task_id = some t.task_id)) = true := by
          simp [mkTaskStarted]
        rw [this]
        rfl
      omega
    | status_update routed done =>
      show started_count t.task_id
        ((ScheduledTaskResultAccumulator.consume ⟨t, buffer⟩ (routed.map (routeStamp t))).1 ++
          (if done = true then []
           else runConsumeLoop t
             (ScheduledTaskResultAccumulator.consume ⟨t, buffer⟩
               (routed.map (routeStamp t))).2.buffer rest)) = run_submit_count
        (RemoteItem.status_update routed done :: rest)
      rw [started_count_append, (routed_pass_counts t routed buffer t.task_id).1]
      cases done with
      | true => simp [run_submit_count, started_count]
      | false =>
        simp only [Bool.false_eq_true, if_false]
        rw [ih _]
        show 0 + run_submit_count rest = run_submit_count rest
        omega
    | artifact =>
      show started_count t.task_id (runConsumeLoop t buffer rest) = run_submit_count rest
      exact ih buffer


/-- A list of events that are neither started nor terminal counts zero in
both counters. -/
theorem counts_zero_of_neutral (tid : String) (l : List Event)
    (h : ∀ e ∈ l, e.event ≠ EventKind.task_started ∧ isTerminalKind e.event = false) :
    started_count tid l = 0 ∧ terminal_count tid l = 0 := by
  refine ⟨started_count_eq_zero (fun e he hc => (h e he).1 hc.1),
    terminal_count_eq_zero (fun e he hc => ?_)⟩
  rw [(h e he).2] at hc
  exact absurd hc.1 (by simp)

/-- A single-task segment contributes nothing to the counters of any other
task id. -/
theorem seg_counts_other (pc : String) (t : Task) (o : TaskOutcome) (tid : String)
    (h : tid ≠ t.task_id) :
    started_count tid (execute_single_task_in_plan pc t o) = 0 ∧
    terminal_count tid (execute_single_task_in_plan pc t o) = 0 := by
  have hk : ∀ e ∈ execute_single_task_in_plan pc t o, e.task_id ≠ some tid := by
    intro e he
    rcases execute_single_task_in_plan_tid pc t o e he with h' | h'
    · rw [h']
      intro hc
      exact h ((Option.some.injEq _ _).mp hc).symm
    · rw [h']
      intro hc
      exact Option.noConfusion hc
  exact ⟨started_count_eq_zero (fun e he hc => hk e he hc.2),
    terminal_count_eq_zero (fun e he hc => hk e he hc.2)⟩

/-- Counter values of a lone batch-level completion event. -/
theorem counts_completed (cid : String) (t : Task) (tid : String) :
    started_count tid [mkTaskCompleted cid t] = 0 ∧
    terminal_count tid [mkTaskCompleted cid t] = (if t.task_id = tid then 1 else 0) := by
  constructor
  · apply started_count_eq_zero
    intro e he hc
    rw [List.mem_singleton.mp he] at hc
    exact absurd hc.1 (by simp [mkTaskCompleted])
  · unfold terminal_count
    rw [List.filter_cons]
    by_cases hid : t.task_id = tid
    · have hcond : (isTerminalKind (mkTaskCompleted cid t).event &&
          decide ((mkTaskCompleted cid t).task_id = some tid)) = true := by
        simp [mkTaskCompleted, isTerminalKind, hid]
      rw [hcond, if_pos hid]
      rfl
    · have hcond : (isTerminalKind (mkTaskCompleted cid t).event &&
          decide ((mkTaskCompleted cid t).task_id = some tid)) = false := by
        simp [mkTaskCompleted, isTerminalKind]
        intro hc
        exact absurd hc hid
      rw [hcond, if_neg hid]
      rfl

/-- Counter values of a lone failure event. -/
theorem counts_failed (cid : String) (t : Task) (msg : String) :
    started_count t.task_id [mkTaskFailed cid t msg] = 0 ∧
    terminal_count t.task_id [mkTaskFailed cid t msg] = 1 := by
  constructor
  · apply started_count_eq_zero
    intro e he hc
    rw [List.mem_singleton.mp he] at hc
    exact absurd hc.1 (by simp [mkTaskFailed])
  · unfold terminal_count
    rw [List.filter_cons]
    have hcond : (isTerminalKind (mkTaskFailed cid t msg).event &&
        decide ((mkTaskFailed cid t msg).task_id = some t.task_id)) = true := by
      simp [mkTaskFailed, isTerminalKind]
    rw [hcond]
    rfl

/-- The handoff framing events of a segment are neutral for the counters. -/
theorem counts_handoff_frame (pc : String) (t : Task) (tid : String) :
    (started_count tid (if t.handoff_from_super_agent then
        [mkSubagentComponent pc t "start", mkThreadStarted t.conversation_id] else []) = 0 ∧
      terminal_count tid (if t.handoff_from_super_agent then
        [mkSubagentComponent pc t "start", mkThreadStarted t.conversation_id] else []) = 0) ∧
    (started_count tid (if t.handoff_from_super_agent && !t.is_scheduled then
        [mkSubagentComponent pc t "end"] else []) = 0 ∧
      terminal_count tid (if t.handoff_from_super_agent && !t.is_scheduled then
        [mkSubagentComponent pc t "end"] else []) = 0) := by
  constructor
  · apply counts_zero_of_neutral
    intro e he
    by_cases hh : t.handoff_from_super_agent = true
    · rw [if_pos hh] at he
      rcases List.mem_cons.mp he with h2 | h2
      · subst h2
        exact ⟨by simp [mkSubagentComponent], by simp [mkSubagentComponent, isTerminalKind]⟩
      · rw [List.mem_singleton.mp h2]
        exact ⟨by simp [mkThreadStarted], by simp [mkThreadStarted, isTerminalKind]⟩
    · rw [if_neg hh] at he
      simp at he
  · apply counts_zero_of_neutral
    intro e he
    by_cases hh : (t.handoff_from_super_agent && !t.is_scheduled) = true
    · rw [if_pos hh] at he
      rw [List.mem_singleton.mp he]
      exact ⟨by simp [mkSubagentComponent], by simp [mkSubagentComponent, isTerminalKind]⟩
    · rw [if_neg hh] at he
      simp at he

/-- A ONCE task's in-plan segment under a well-formed outcome emits exactly
one `task_started` and exactly one terminal event for its own id: a
`task_completed` on success, a `task_failed` on a raised exception. -/
theorem seg_counts_own (pc : String) (t : Task) (o : TaskOutcome)
    (honce : t.pattern = TaskPattern.once) (hwf : wf_once_outcome o = true) :
    started_count t.task_id (execute_single_task_in_plan pc t o) = 1 ∧
    terminal_count t.task_id (execute_single_task_in_plan pc t o) = 1 := by
  have hsched : t.is_scheduled = false := by
    simp [Task.is_scheduled, honce]
  obtain ⟨⟨hA1, hA2⟩, ⟨hC1, hC2⟩⟩ := counts_handoff_frame pc t t.task_id
  cases o with
  | ok runs =>
    cases runs with
    | nil => simp [wf_once_outcome] at hwf
    | cons s rest =>
      cases rest with
      | cons s2 rest2 => simp [wf_once_outcome] at hwf
      | nil =>
        have hsc : run_submit_count s = 1 := by
          simpa [wf_once_outcome] using hwf
        have hmid : execute_single_task_in_plan pc t (TaskOutcome.ok [s]) =
            (if t.handoff_from_super_agent then
              [mkSubagentComponent pc t "start", mkThreadStarted t.conversation_id] else []) ++
            ((runConsumeLoop t [] s ++ [mkTaskCompleted t.conversation_id t]) ++ []) ++
            (if t.handoff_from_super_agent && !t.is_scheduled then
              [mkSubagentComponent pc t "end"] else []) := by
          simp only [execute_single_task_in_plan, execute_task, hsched, Bool.false_eq_true,
            if_false, List.nil_append, List.headD_cons, execute_single_task_run]
        rw [hmid]
        rw [started_count_append, started_count_append, started_count_append,
          started_count_append] at *
        rw [terminal_count_append, terminal_count_append, terminal_count_append,
          terminal_count_append]
        rw [hA1, hC1, hA2, hC2, runConsumeLoop_started_count t s [], hsc,
          runConsumeLoop_terminal_count t s [] t.task_id,
          (counts_completed t.conversation_id t t.task_id).1,
          (counts_completed t.conversation_id t t.task_id).2]
        constructor
        · show 0 + (1 + 0 + 0) + 0 = 1
          omega
        · rw [if_pos rfl]
          show 0 + (0 + 1 + 0) + 0 = 1
          omega
  | err runs partialRun =>
    cases runs with
    | cons s rest => simp [wf_once_outcome] at hwf
    | nil =>
      have hsc : run_submit_count partialRun = 1 := by
        have := hwf
        simp only [wf_once_outcome, Bool.and_eq_true, decide_eq_true_eq] at this
        exact this.1
      have hmid : execute_single_task_in_plan pc t (TaskOutcome.err [] partialRun) =
          (if t.handoff_from_super_agent then
            [mkSubagentComponent pc t "start", mkThreadStarted t.conversation_id] else []) ++
          ((runConsumeLoop t [] partialRun) ++
            [mkTaskFailed pc t (executionErrorMessage t)]) ++
          (if t.handoff_from_super_agent && !t.is_scheduled then
            [mkSubagentComponent pc t "end"] else []) := by
        simp only [execute_single_task_in_plan, execute_task, hsched, Bool.false_eq_true,
          if_false, if_true, List.nil_append, execute_single_task_run]
      rw [hmid]
      rw [started_count_append, started_count_append, started_count_append]
      rw [terminal_count_append, terminal_count_append, terminal_count_append]
      rw [hA1, hC1, hA2, hC2, runConsumeLoop_started_count t partialRun [], hsc,
        runConsumeLoop_terminal_count t partialRun [] t.task_id,
        (counts_failed pc t (executionErrorMessage t)).1,
        (counts_failed pc t (executionErrorMessage t)).2]
      exact ⟨by omega, by omega⟩


/-- Counters of a list of sequentially executed segments: each task of the
list contributes one started and one terminal event per occurrence of the
counted id. -/
theorem flatten_segs_counts (pc : String) (outcomes : String → TaskOutcome) (tid : String) :
    ∀ (b : List Task),
      (∀ t ∈ b, t.pattern = TaskPattern.once ∧ wf_once_outcome (outcomes t.task_id) = true) →
      started_count tid
        (b.map (fun t => execute_single_task_in_plan pc t (outcomes t.task_id))).flatten =
        (b.filter (fun u => u.task_id = tid)).length ∧
      terminal_count tid
        (b.map (fun t => execute_single_task_in_plan pc t (outcomes t.task_id))).flatten =
        (b.filter (fun u => u.task_id = tid)).length := by
  intro b
  induction b with
  | nil =>
    intro _
    exact ⟨rfl, rfl⟩
  | cons t b' ih =>
    intro hall
    have iht := ih (fun u hu => hall u (List.mem_cons_of_mem t hu))
    have hme := hall t (List.mem_cons_self t b')
    rw [List.map_cons, List.flatten_cons, started_count_append, terminal_count_append,
      List.filter_cons, iht.1, iht.2]
    by_cases hid : t.task_id = tid
    · have hown := seg_counts_own pc t (outcomes t.task_id) hme.1 hme.2
      rw [← hid, hown.1, hown.2, if_pos (by simp)]
      constructor <;> (rw [List.length_cons]; omega)
    · have hoth := seg_counts_other pc t (outcomes t.task_id) tid (fun hc => hid hc.symm)
      rw [hoth.1, hoth.2, if_neg (by simpa using hid)]
      exact ⟨by simp, by simp⟩

/-- Counters of the batch-level completion events: one terminal event per
occurrence of the counted id, no started events. -/
theorem completed_map_counts (pc : String) (tid : String) :
    ∀ (b : List Task),
      started_count tid (b.map (fun t => mkTaskCompleted pc t)) = 0 ∧
      terminal_count tid (b.map (fun t => mkTaskCompleted pc t)) =
        (b.filter (fun u => u.task_id = tid)).length := by
  intro b
  induction b with
  | nil => exact ⟨rfl, rfl⟩
  | cons t b' ih =>
    have hsplit : (t :: b').map (fun t => mkTaskCompleted pc t) =
        [mkTaskCompleted pc t] ++ b'.map (fun t => mkTaskCompleted pc t) := rfl
    rw [hsplit, started_count_append, terminal_count_append, ih.1, ih.2,
      (counts_completed pc t tid).1, (counts_completed pc t tid).2, List.filter_cons]
    by_cases hid : t.task_id = tid
    · rw [if_pos hid, if_pos (by simpa using hid)]
      exact ⟨by simp, by rw [List.length_cons]; omega⟩
    · rw [if_neg hid, if_neg (by simpa using hid)]
      exact ⟨by simp, by simp⟩

/-- Counters of one executed batch of ONCE tasks under well-formed outcomes:
one started and two terminal events (the segment's own and the batch-level
completion) per occurrence of the counted id. -/
theorem execute_batch_counts (pc : String) (outcomes : String → TaskOutcome) (tid : String)
    (b : List Task)
    (hall : ∀ t ∈ b, t.pattern = TaskPattern.once ∧ wf_once_outcome (outcomes t.task_id) = true) :
    started_count tid (execute_batch pc outcomes b) =
      (b.filter (fun u => u.task_id = tid)).length ∧
    terminal_count tid (execute_batch pc outcomes b) =
      2 * (b.filter (fun u => u.task_id = tid)).length := by
  have hsegs := flatten_segs_counts pc outcomes tid b hall
  have hcomp := completed_map_counts pc tid b
  unfold execute_batch
  rw [started_count_append, terminal_count_append, hsegs.1, hsegs.2, hcomp.1, hcomp.2]
  exact ⟨by omega, by omega⟩

/-- The `ready` filter is idempotent on a fixed `completed` set. -/
theorem ready_filter_idem (c : List String) (l : List Task) :
    ready_filter c (ready_filter c l) = ready_filter c l := by
  unfold ready_filter
  rw [List.filter_filter]
  apply List.filter_congr
  intro a _
  exact Bool.and_self _

/-- The one-step unfolding of `peelAcyclic` on a non-empty remainder. -/
theorem peelAcyclic_cons (fuel : ℕ) (rem : List Task) (completed : List String)
    (hne : rem ≠ []) :
    peelAcyclic (fuel + 1) rem completed =
      (if (ready_filter completed rem).isEmpty then false
       else peelAcyclic fuel
        (rem.filter (fun t =>
          !((ready_filter completed rem).map Task.task_id).contains t.task_id))
        (completed ++ (ready_filter completed rem).map Task.task_id)) := by
  simp only [peelAcyclic]
  rw [if_neg (by simp [List.isEmpty_eq_false, hne])]

/-- When the peeling never took the cycle fallback, every batch the
dependency loop sees is entirely ready: the loop executes each batch in
full, so its output is the concatenation of the batch executions. -/
theorem dep_loop_of_acyclic (pc : String) (outcomes : String → TaskOutcome) :
    ∀ (fuel : ℕ) (rem : List Task) (completed : List String),
      peelAcyclic fuel rem completed = true →
      execute_plan_with_dependencies_loop pc outcomes (peelBatches fuel rem completed)
          completed =
        ((peelBatches fuel rem completed).map (execute_batch pc outcomes)).flatten := by
  intro fuel
  induction fuel with
  | zero =>
    intro rem c _
    simp [peelBatches, execute_plan_with_dependencies_loop]
  | succ fuel ih =>
    intro rem c hacy
    by_cases hre : rem = []
    · subst hre
      rw [peelBatches_nil]
      simp [execute_plan_with_dependencies_loop]
    · rw [peelAcyclic_cons fuel rem c hre] at hacy
      by_cases h0 : (ready_filter c rem).isEmpty = true
      · rw [if_pos h0] at hacy
        exact absurd hacy (by simp)
      · have h0' : (ready_filter c rem).isEmpty = false := Bool.eq_false_iff.mpr h0
        rw [if_neg h0] at hacy
        rw [peelBatches_cons fuel rem c hre]
        simp only [h0', Bool.false_eq_true, if_false]
        show execute_batch pc outcomes (ready_filter c (ready_filter c rem)) ++
            execute_plan_with_dependencies_loop pc outcomes
              (peelBatches fuel
                (rem.filter (fun t =>
                  !((ready_filter c rem).map Task.task_id).contains t.task_id))
                (c ++ (ready_filter c rem).map Task.task_id))
              (c ++ (ready_filter c (ready_filter c rem)).map Task.task_id) = _
        rw [ready_filter_idem, ih _ _ hacy, List.map_cons, List.flatten_cons]

/-- Counters of a list of executed batches of ONCE tasks. -/
theorem batches_flatten_counts (pc : String) (outcomes : String → TaskOutcome) (tid : String) :
    ∀ (B : List (List Task)),
      (∀ t ∈ B.flatten, t.pattern = TaskPattern.once ∧
        wf_once_outcome (outcomes t.task_id) = true) →
      started_count tid ((B.map (execute_batch pc outcomes)).flatten) =
        ((B.flatten).filter (fun u => u.task_id = tid)).length ∧
      terminal_count tid ((B.map (execute_batch pc outcomes)).flatten) =
        2 * ((B.flatten).filter (fun u => u.task_id = tid)).length := by
  intro B
  induction B with
  | nil =>
    intro _
    exact ⟨rfl, rfl⟩
  | cons b bs ih =>
    intro hall
    have hallb : ∀ t ∈ b, t.pattern = TaskPattern.once ∧
        wf_once_outcome (outcomes t.task_id) = true := by
      intro t ht
      exact hall t (by rw [List.flatten_cons, List.mem_append]; exact Or.inl ht)
    have ihs := ih (fun t ht => hall t (by rw [List.flatten_cons, List.mem_append]; exact Or.inr ht))
    have hb := execute_batch_counts pc outcomes tid b hallb
    rw [List.map_cons, List.flatten_cons, started_count_append, terminal_count_append,
      List.flatten_cons, List.filter_append, List.length_append,
      hb.1, hb.2, ihs.1, ihs.2]
    exact ⟨rfl, by omega⟩

/-- In a list of tasks with pairwise-distinct ids, exactly one entry carries
the id of any member. -/
theorem filter_id_length_one (tasks : List Task) (hnodup : (tasks.map Task.task_id).Nodup)
    (t : Task) (ht : t ∈ tasks) :
    (tasks.filter (fun u => u.task_id = t.task_id)).length = 1 := by
  have hmem : t ∈ tasks.filter (fun u => u.task_id = t.task_id) :=
    List.mem_filter.mpr ⟨ht, by simp⟩
  have hall : ∀ u ∈ tasks.filter (fun u => u.task_id = t.task_id), u = t := by
    intro u hu
    have h1 := (List.mem_filter.mp hu).1
    have h2 : u.task_id = t.task_id := by simpa using (List.mem_filter.mp hu).2
    exact List.inj_on_of_nodup_map hnodup h1 ht h2
  have hnd : (tasks.filter (fun u => u.task_id = t.task_id)).Nodup :=
    (List.filter_sublist tasks).nodup (List.Nodup.of_map Task.task_id hnodup)
  cases hl : tasks.filter (fun u => u.task_id = t.task_id) with
  | nil =>
    rw [hl] at hmem
    simp at hmem
  | cons a l2 =>
    cases l2 with
    | nil => rfl
    | cons b l3 =>
      rw [hl] at hall hnd
      have ha := hall a (List.mem_cons_self a _)
      have hb := hall b (List.mem_cons_of_mem a (List.mem_cons_self b _))
      rw [List.nodup_cons] at hnd
      exact absurd (by rw [ha, hb] : a = b) (fun hab => hnd.1 (hab ▸ List.mem_cons_self b l3))


/-- C1: counterexample. On a two-task plan whose `depends_on` graph is a
DAG (`b` depends on `a`), with distinct ids, all tasks ONCE and every
outcome a clean single-`submitted` run, the dependency-aware path emits TWO
terminal events for task `a` — the segment's own `task_completed`
(`executor.py` line 439) plus the batch-level `task_completed` of lines
188-199 — contradicting "exactly one terminal event per task". -/
theorem C1_counterexample :
    acyclic_tasks exPlanDep.tasks = true ∧
    (exPlanDep.tasks.map Task.task_id).Nodup ∧
    truthyOpt exPlanDep.guidance_message = false ∧
    (∀ t ∈ exPlanDep.tasks, t.pattern = TaskPattern.once ∧
      wf_once_outcome (exOutcomes t.task_id) = true) ∧
    started_count "a" (execute_plan "task-guid" exPlanDep exOutcomes) = 1 ∧
    terminal_count "a" (execute_plan "task-guid" exPlanDep exOutcomes) = 2 := by
  decide

/-- C1 (amended): for every plan without guidance message whose tasks have
pairwise-distinct ids and an acyclic `depends_on` graph, all ONCE, with
well-formed outcomes (one processed `submitted` poll per run; failures
interrupted before a terminal `done`), each task gets exactly one
`task_started` event; it gets exactly one terminal event when the plan has
no dependency edge at all, but exactly TWO terminal events when any task of
the plan has a non-empty `depends_on` — the batch loop of
`_execute_plan_with_dependencies` (`executor.py` lines 187-199) emits a
second batch-level `task_completed` on top of the per-task terminal of
`_execute_task`/`_execute_single_task_in_plan`. -/
theorem C1_lifecycle_amended (fresh : String) (plan : ExecutionPlan)
    (outcomes : String → TaskOutcome)
    (hguid : truthyOpt plan.guidance_message = false)
    (hnodup : (plan.tasks.map Task.task_id).Nodup)
    (hacy : acyclic_tasks plan.tasks = true)
    (hall : ∀ t ∈ plan.tasks, t.pattern = TaskPattern.once ∧
      wf_once_outcome (outcomes t.task_id) = true) :
    ∀ t ∈ plan.tasks,
      started_count t.task_id (execute_plan fresh plan outcomes) = 1 ∧
      terminal_count t.task_id (execute_plan fresh plan outcomes) =
        (if plan.tasks.any (fun u => !u.depends_on.isEmpty) then 2 else 1) := by
  intro t ht
  have hfl : (plan.tasks.filter (fun u => u.task_id = t.task_id)).length = 1 :=
    filter_id_length_one plan.tasks hnodup t ht
  unfold execute_plan
  rw [if_neg (by rw [hguid]; simp)]
  by_cases hdep : plan.tasks.any (fun u => !u.depends_on.isEmpty) = true
  · rw [if_pos hdep, if_pos hdep]
    have hded : dedupById plan.tasks = plan.tasks := dedupById_eq_self hnodup
    have hacy2 : peelAcyclic plan.tasks.length plan.tasks [] = true := by
      unfold acyclic_tasks at hacy
      rw [hded] at hacy
      exact hacy
    have hloop : execute_plan_with_dependencies_loop plan.conversation_id outcomes
        (build_execution_batches plan.tasks) [] =
        ((peelBatches plan.tasks.length plan.tasks []).map
          (execute_batch plan.conversation_id outcomes)).flatten := by
      unfold build_execution_batches
      rw [hded]
      exact dep_loop_of_acyclic plan.conversation_id outcomes plan.tasks.length
        plan.tasks [] hacy2
    rw [hloop]
    have hsub : ∀ u ∈ (peelBatches plan.tasks.length plan.tasks []).flatten,
        u ∈ plan.tasks :=
      fun u hu => peel_flatten_subset plan.tasks.length plan.tasks [] u hu
    have hcounts := batches_flatten_counts plan.conversation_id outcomes t.task_id
      (peelBatches plan.tasks.length plan.tasks [])
      (fun u hu => hall u (hsub u hu))
    have hperm : ((peelBatches plan.tasks.length plan.tasks []).flatten).Perm plan.tasks :=
      List.perm_iff_count.mpr
        (peel_flatten_count plan.tasks.length plan.tasks [] le_rfl hnodup)
    have hflen : (((peelBatches plan.tasks.length plan.tasks []).flatten).filter
        (fun u => u.task_id = t.task_id)).length = 1 := by
      rw [(hperm.filter _).length_eq, hfl]
    rw [hcounts.1, hcounts.2, hflen]
    exact ⟨rfl, by omega⟩
  · rw [if_neg hdep, if_neg hdep]
    have hseq := flatten_segs_counts plan.conversation_id outcomes t.task_id plan.tasks hall
    rw [hseq.1, hseq.2, hfl]
    exact ⟨rfl, rfl⟩

/-- Witness for `C1_lifecycle_amended` on the concrete dependent plan: task
`a` gets one started event and — the plan having a dependency edge — two
terminal events. -/
theorem C1_lifecycle_amended_witness :
    started_count "a" (execute_plan "task-guid" exPlanDep exOutcomes) = 1 ∧
    terminal_count "a" (execute_plan "task-guid" exPlanDep exOutcomes) =
      (if exPlanDep.tasks.any (fun u => !u.depends_on.isEmpty) then 2 else 1) := by
  have h := C1_lifecycle_amended "task-guid" exPlanDep exOutcomes (by decide) (by decide)
    (by decide) (by decide) exTaskA (by decide)
  exact h

end StockBuddy

